import Mathlib

/-!
Verification of the spaCy/DBpedia annotation app (app.py).

This file gives a shallow embedding of the app's own logic: the
annotation-identifier bookkeeping (class Identifiers), the per-token
character-offset table and span alignment, the uncased-NER truecasing
pre-pass, the DBpedia category lookup, the entity / dependency / relation
passes of SpacyApp._add_tool_output, and SpacyApp._read_text.

The external spaCy pipeline is modelled as an oracle producing a SpacyDoc
value (tokens with their attributes, noun chunks, sentences, entities);
everything the app computes from that value is translated faithfully.
Python dicts are modelled as association lists with first-occurrence
update semantics; Python dict-subscript faults (KeyError) are modelled by
Option; a Python exception escaping a function is modelled by Except.
-/

namespace SpacyDbpedia

/-- Python string slicing text[a:b] on character positions (non-negative
indices, clamped at the ends, empty when b ≤ a). -/
def pySlice (s : String) (a b : Nat) : String :=
  String.mk ((s.data.drop a).take (b - a))

/-- Python str.lower(): lowercase every character. -/
def pyLower (s : String) : String :=
  String.mk (s.data.map Char.toLower)

/-- Python's substring test (pat in s). -/
def strIn (pat s : String) : Bool :=
  decide (pat.data <:+: s.data)

/-- The attributes of a spaCy token that app.py reads.  tok.head is a
token object in spaCy; the head's attributes that the app reads are
flattened into headI / headIdx / headText / headLemma.  entType models
tok.ent_type_ (used only for the uncased NER pre-pass). -/
structure Tok where
  i : Nat
  idx : Nat
  text : String
  tag : String
  lemma_ : String
  dep : String
  headI : Nat
  headIdx : Nat
  headText : String
  headLemma : String
  entType : String
  deriving Repr, DecidableEq

/-- A token-index range [start, stop) as reported by spaCy for a noun
chunk or a sentence (chunk.start / chunk.end). -/
structure SpanRange where
  start : Nat
  stop : Nat
  deriving Repr, DecidableEq

/-- A spaCy entity as read by app.py: its token-index range, its root
token's attributes (ent.root.i / .idx / .text), its knowledge-base id
(ent.kb_id_), and the raw DBpedia-spotlight result.  The raw result is
modelled as an optional field map whose values are (some s) for string
values and none for non-string values, so that both a missing @types key
and a non-string @types value are representable. -/
structure Ent where
  start : Nat
  stop : Nat
  rootI : Nat
  rootIdx : Nat
  rootText : String
  kbId : String
  raw : Option (List (String × Option String))
  deriving Repr, DecidableEq

/-- The parts of a spaCy Doc that app.py reads. -/
structure SpacyDoc where
  tokens : List Tok
  nounChunks : List SpanRange
  sents : List SpanRange
  ents : List Ent
  deriving Repr, DecidableEq

/-- An annotation property value (string or integer). -/
inductive PVal where
  | s : String → PVal
  | n : Nat → PVal
  deriving Repr, DecidableEq, BEq

/-- An annotation added by add_annotation: its @type, identifier,
optional document id, optional start/end character offsets, and the
remaining properties in insertion order. -/
structure Ann where
  attype : String
  ident : String
  docId : Option String
  start : Option Nat
  stop : Option Nat
  props : List (String × PVal)
  deriving Repr, DecidableEq

/-! ## Decimal rendering of a counter ("%s%d" % (prefix, counter)) -/

/-- The character of a decimal digit. -/
def digitChar (d : Nat) : Char :=
  Char.ofNat (48 + d)

/-- Little-endian decimal digits of n, with explicit fuel (any fuel > n
gives the true digit list). -/
def toDigitsRev (fuel n : Nat) : List Nat :=
  match fuel with
  | 0 => []
  | fuel + 1 => if n < 10 then [n] else n % 10 :: toDigitsRev fuel (n / 10)

/-- The decimal rendering of a natural number, as printed by Python %d. -/
def natRepr (n : Nat) : String :=
  String.mk (((toDigitsRev (n + 1) n).map digitChar).reverse)

/-! ## class Identifiers -/

/-- The state of class Identifiers: the defaultdict(int) from prefix to
counter, modelled as an association list (lookup default 0). -/
abbrev IdState : Type := List (String × Nat)

/-- Reading the defaultdict: a missing key reads as 0. -/
def idGet (st : IdState) (p : String) : Nat :=
  (List.lookup p st).getD 0

/-- Writing one key of the defaultdict. -/
def idSet (st : IdState) (p : String) (v : Nat) : IdState :=
  match st with
  | [] => [(p, v)]
  | kv :: rest => if kv.1 = p then (p, v) :: rest else kv :: idSet rest p v

/-- Identifiers.new: increment the prefix's counter and return
"%s%d" % (prefix, counter). -/
def idNew (st : IdState) (p : String) : String × IdState :=
  let c := idGet st p + 1
  (p ++ natRepr c, idSet st p c)

/-- Identifiers.reset: a fresh defaultdict(int). -/
def idReset : IdState := []

/-- The identifier strings returned by a sequence of Identifiers.new
calls (one prefix per call), starting from state st. -/
def runIds (st : IdState) (ps : List String) : List String :=
  match ps with
  | [] => []
  | p :: rest => (idNew st p).1 :: runIds (idNew st p).2 rest

/-- The identifier strings returned by a sequence of Identifiers.new
calls made after an Identifiers.reset. -/
def runBatch (ps : List String) : List String :=
  runIds idReset ps

/-- The identifier prefixes that app.py passes to Identifiers.new. -/
def appPrefixes : List String := ["t", "nc", "s", "ne", "dep", "rel"]

/-! ## SpacyApp._read_text -/

/-- A text document as read by _read_text: an optional location (None or
empty string model to none) and the inline text value. -/
structure TextDoc where
  location : Option String
  textValue : String
  deriving Repr, DecidableEq

/-- SpacyApp._read_text.  fetch models urllib.request.urlopen followed
by read().decode("utf8"); a network error is an Except.error.  There is
no try/except in _read_text, so a fetch error is returned (propagates). -/
def read_text (fetch : String → Except String String) (doc : TextDoc) :
    Except String String :=
  match doc.location with
  | some loc => fetch loc
  | none => Except.ok doc.textValue

/-! ## find_dbpedia_type -/

/-- The interested_types list of find_dbpedia_type. -/
def interestedTypes : List String := ["Person", "Place", "Organisation", "Device"]

/-- find_dbpedia_type (app.py lines 171-181).  The try block reads
ent._.dbpedia_raw_result["@types"] and calls .split on it; a missing raw
result, a missing "@types" key, or a non-string "@types" value raises
inside the try and the bare except returns None.  With a string value s
the loop returns the first interested category c such that
"DBpedia:" + c occurs in s, else None. -/
def find_dbpedia_type (raw : Option (List (String × Option String))) :
    Option String :=
  match raw with
  | none => none
  | some fields =>
    match List.lookup "@types" fields with
    | none => none
    | some none => none
    | some (some s) => interestedTypes.find? (fun c => strIn ("DBpedia:" ++ c) s)

/-! ## The uncased-NER truecasing pre-pass (app.py lines 132-142) -/

/-- Uppercase the character at position i of a character list (the
Python statement input_text_list[start] = input_text_list[start].upper();
position start is always in range because it is a token offset of the
same text). -/
def listUpperAt (cs : List Char) (i : Nat) : List Char :=
  match cs.get? i with
  | some c => cs.set i c.toUpper
  | none => cs

/-- The pre-pass run when the uncased NER model is selected: lowercase
the text, run the NER model on the lowercased text, and uppercase the
character at position tok.idx for every token whose ent_type_ is
non-empty. -/
def prePass (nerFn : String → List Tok) (text : String) : String :=
  let lowered := pyLower text
  let nerToks := nerFn lowered
  String.mk (nerToks.foldl
    (fun cs t => if t.entType ≠ "" then listUpperAt cs t.idx else cs)
    lowered.data)

/-- Modelled from the claim's words (for comparison with prePass, which
is the code's behavior): lowercase the whole text, then uppercase every
character position covered by a token that the NER model marks as part
of a named entity. -/
def prePassClaim (nerFn : String → List Tok) (text : String) : String :=
  let lowered := pyLower text
  let nerToks := nerFn lowered
  String.mk (lowered.data.mapIdx (fun p c =>
    if nerToks.any (fun t =>
        t.entType != "" && decide (t.idx ≤ p) && decide (p < t.idx + t.text.length))
    then c.toUpper else c))

/-! ## The per-token character-offset table and span alignment -/

/-- The (p1, p2) pair stored in tok_idx for a token: (tok.idx,
tok.idx + len(tok.text)). -/
def tokEntry (t : Tok) : Nat × Nat :=
  (t.idx, t.idx + t.text.length)

/-- The tok_idx dict built by enumerate(spacy_doc): it maps the
enumeration position n (0 ≤ n < number of tokens) to tokEntry of the
n-th token.  The argument is an Int because the code later subscripts
it at chunk.end - 1, which can be the Python integer -1. -/
def tokIdxTbl (toks : List Tok) (n : Int) : Option (Nat × Nat) :=
  if n < 0 then none else (toks.get? n.toNat).map tokEntry

/-- p1 = tok_idx[u.start][0]; p2 = tok_idx[u.end - 1][1].  A KeyError
(index outside the dict) is none. -/
def computeSpan (tbl : Int → Option (Nat × Nat)) (s e : Nat) :
    Option (Nat × Nat) :=
  match tbl (s : Int), tbl ((e : Int) - 1) with
  | some a, some b => some (a.1, b.2)
  | _, _ => none

/-! ## Python dicts keyed by token index -/

/-- Python dict assignment d[k] = v: replace the value at the first
occurrence of k in place, else append the new pair. -/
def dictInsert {α : Type} (d : List (Nat × α)) (k : Nat) (v : α) :
    List (Nat × α) :=
  match d with
  | [] => [(k, v)]
  | kv :: rest => if kv.1 = k then (k, v) :: rest else kv :: dictInsert rest k v

/-! ## The annotation passes of SpacyApp._add_tool_output -/

/-- The token loop (app.py lines 152-159): one Token annotation per
token, with pos / lemma / text / i properties; text is sliced from
text_orig.  (The same loop also fills tok_idx, which is modelled
separately by tokIdxTbl; the dict is only read after this loop ends.) -/
def tokenLoop (textOrig : String) (docId : Option String) (toks : List Tok)
    (st : IdState) : List Ann × IdState :=
  match toks with
  | [] => ([], st)
  | t :: rest =>
    let p1 := t.idx
    let p2 := t.idx + t.text.length
    let mint := idNew st "t"
    let a : Ann :=
      { attype := "Token", ident := mint.1, docId := docId,
        start := some p1, stop := some p2,
        props := [("pos", PVal.s t.tag), ("lemma", PVal.s t.lemma_),
                  ("text", PVal.s (pySlice textOrig p1 p2)), ("i", PVal.n t.i)] }
    let r := tokenLoop textOrig docId rest mint.2
    (a :: r.1, r.2)

/-- The noun-chunk loop (lines 160-164) and the sentence loop (lines
165-169): one annotation per range, spanning
(tok_idx[u.start][0], tok_idx[u.end - 1][1]), with the text property
sliced from text_orig; a KeyError on either subscript aborts. -/
def spanLoop (attype pfx : String) (textOrig : String) (docId : Option String)
    (tbl : Int → Option (Nat × Nat)) (spans : List SpanRange)
    (st : IdState) : Option (List Ann × IdState) :=
  match spans with
  | [] => some ([], st)
  | sp :: rest =>
    match computeSpan tbl sp.start sp.stop with
    | none => none
    | some pq =>
      let mint := idNew st pfx
      let a : Ann :=
        { attype := attype, ident := mint.1, docId := docId,
          start := some pq.1, stop := some pq.2,
          props := [("text", PVal.s (pySlice textOrig pq.1 pq.2))] }
      match spanLoop attype pfx textOrig docId tbl rest mint.2 with
      | none => none
      | some r => some (a :: r.1, r.2)

/-- The properties dict stored for an accepted entity in entity_dict
and emitted on its NamedEntity annotation (line 192-193). -/
structure EntProps where
  text : String
  category : String
  rootI : Nat
  rootText : String
  kbId : String
  deriving Repr, DecidableEq

/-- EntProps in annotation-property form (insertion order of line 192). -/
def EntProps.toProps (e : EntProps) : List (String × PVal) :=
  [("text", PVal.s e.text), ("category", PVal.s e.category),
   ("root_i", PVal.n e.rootI), ("root_text", PVal.s e.rootText),
   ("kb_id", PVal.s e.kbId)]

/-- The named-entity loop (lines 186-196): an entity whose
find_dbpedia_type is None is skipped entirely; otherwise its span is
aligned through tok_idx, its properties are stored in entity_dict under
key ent.root.i and emitted as a NamedEntity annotation. -/
def entityLoop (textOrig : String) (docId : Option String)
    (tbl : Int → Option (Nat × Nat)) (ents : List Ent) (st : IdState)
    (ed : List (Nat × EntProps)) :
    Option (List Ann × List (Nat × EntProps) × IdState) :=
  match ents with
  | [] => some ([], ed, st)
  | ent :: rest =>
    match find_dbpedia_type ent.raw with
    | none => entityLoop textOrig docId tbl rest st ed
    | some category =>
      match computeSpan tbl ent.start ent.stop with
      | none => none
      | some pq =>
        let p1r := ent.rootIdx
        let p2r := ent.rootIdx + ent.rootText.length
        let props : EntProps :=
          { text := pySlice textOrig pq.1 pq.2, category := category,
            rootI := ent.rootI, rootText := pySlice textOrig p1r p2r,
            kbId := ent.kbId }
        let ed1 := dictInsert ed ent.rootI props
        let mint := idNew st "ne"
        let a : Ann :=
          { attype := "NamedEntity", ident := mint.1, docId := docId,
            start := some pq.1, stop := some pq.2, props := props.toProps }
        match entityLoop textOrig docId tbl rest mint.2 ed1 with
        | none => none
        | some r => some (a :: r.1, r.2)

/-- The governor-side properties dict stored in governer_dict
(line 211). -/
structure GovProps where
  dep : String
  governerText : String
  governerLemma : String
  governerI : Nat
  deriving Repr, DecidableEq

/-- The dependency loop (lines 206-217): for every token, emit a
Dependency annotation (no offsets) carrying the dependent's and the
governor's text / lemma / index; when the token's index is a key of
entity_dict, also record the governor-side properties in governer_dict
under that index. -/
def depLoop (textOrig : String) (docId : Option String)
    (ed : List (Nat × EntProps)) (toks : List Tok) (st : IdState)
    (gd : List (Nat × GovProps)) :
    List Ann × List (Nat × GovProps) × IdState :=
  match toks with
  | [] => ([], gd, st)
  | t :: rest =>
    let p1d := t.idx
    let p2d := t.idx + t.text.length
    let p1g := t.headIdx
    let p2g := t.headIdx + t.headText.length
    let pg : GovProps :=
      { dep := t.dep, governerText := pySlice textOrig p1g p2g,
        governerLemma := t.headLemma, governerI := t.headI }
    let gd1 := if ed.any (fun kv => kv.1 = t.i) then dictInsert gd t.i pg else gd
    let mint := idNew st "dep"
    let a : Ann :=
      { attype := "Dependency", ident := mint.1, docId := docId,
        start := none, stop := none,
        props := [("dependent_text", PVal.s (pySlice textOrig p1d p2d)),
                  ("dependent_lemma", PVal.s t.lemma_),
                  ("dependent_i", PVal.n t.i),
                  ("dep", PVal.s pg.dep),
                  ("governer_text", PVal.s pg.governerText),
                  ("governer_lemma", PVal.s pg.governerLemma),
                  ("governer_i", PVal.n pg.governerI)] }
    let r := depLoop textOrig docId ed rest mint.2 gd1
    (a :: r.1, r.2.1, r.2.2)

/-- The properties of a GenericRelation annotation (lines 223-228). -/
def mkRelProps (e1 : EntProps) (g1 : GovProps) (e2 : EntProps)
    (g2 : GovProps) : List (String × PVal) :=
  [("rel_text", PVal.s g1.governerText),
   ("rel_lemma", PVal.s g1.governerLemma),
   ("rel_i", PVal.n g1.governerI),
   ("e1_text", PVal.s e1.text),
   ("e1_root_i", PVal.n e1.rootI),
   ("e1_kb_id", PVal.s e1.kbId),
   ("e1_dep", PVal.s g1.dep),
   ("e2_text", PVal.s e2.text),
   ("e2_root_i", PVal.n e2.rootI),
   ("e2_kb_id", PVal.s e2.kbId),
   ("e2_dep", PVal.s g2.dep)]

/-- The inner relation loop (for i2 in entity_dict) for a fixed outer
key i1: Python's "(i1 < i2) and ..." short-circuits, so governer_dict
is only subscripted when i1 < i2; a KeyError there is none. -/
def relInner (docId : Option String) (gd : List (Nat × GovProps)) (i1 : Nat)
    (e1 : EntProps) (ed2 : List (Nat × EntProps)) (st : IdState) :
    Option (List Ann × IdState) :=
  match ed2 with
  | [] => some ([], st)
  | kv :: rest =>
    if i1 < kv.1 then
      match List.lookup i1 gd, List.lookup kv.1 gd with
      | some g1, some g2 =>
        if g1.governerI = g2.governerI then
          let mint := idNew st "rel"
          let a : Ann :=
            { attype := "GenericRelation", ident := mint.1, docId := docId,
              start := none, stop := none, props := mkRelProps e1 g1 kv.2 g2 }
          match relInner docId gd i1 e1 rest mint.2 with
          | none => none
          | some r => some (a :: r.1, r.2)
        else relInner docId gd i1 e1 rest st
      | _, _ => none
    else relInner docId gd i1 e1 rest st

/-- The relation loop (lines 220-231): for every ordered pair of keys
of entity_dict with i1 < i2 whose recorded governors have the same
token index, emit one GenericRelation annotation. -/
def relLoop (docId : Option String) (ed : List (Nat × EntProps))
    (gd : List (Nat × GovProps)) (edIter : List (Nat × EntProps))
    (st : IdState) : Option (List Ann × IdState) :=
  match edIter with
  | [] => some ([], st)
  | kv :: rest =>
    match relInner docId gd kv.1 kv.2 ed st with
    | none => none
    | some r1 =>
      match relLoop docId ed gd rest r1.2 with
      | none => none
      | some r2 => some (r1.1 ++ r2.1, r2.2)

/-- The unused helper case_or_not (lines 147-148): lowercase the text
back iff the uncased NER model is selected.  It is defined in
_add_tool_output but never called. -/
def case_or_not (nerActive : Bool) (text : String) : String :=
  if nerActive then pyLower text else text

/-- SpacyApp._add_tool_output for one document, given the original text
(as returned by _read_text), the optional uncased NER model, and the
main pipeline nlpFn.  Returns the annotations in emission order and the
final identifier state, or none when a dict subscript faults. -/
def addToolOutput (nerOpt : Option (String → List Tok))
    (nlpFn : String → SpacyDoc) (docId : Option String) (textOrig : String)
    (st : IdState) : Option (List Ann × IdState) :=
  let inputText :=
    match nerOpt with
    | none => textOrig
    | some nerFn => prePass nerFn textOrig
  let doc := nlpFn inputText
  let tbl := tokIdxTbl doc.tokens
  let tk := tokenLoop textOrig docId doc.tokens st
  match spanLoop "NounChunk" "nc" textOrig docId tbl doc.nounChunks tk.2 with
  | none => none
  | some nc =>
    match spanLoop "Sentence" "s" textOrig docId tbl doc.sents nc.2 with
    | none => none
    | some sn =>
      match entityLoop textOrig docId tbl doc.ents sn.2 [] with
      | none => none
      | some ne =>
        let ed := ne.2.1
        let dp := depLoop textOrig docId ed doc.tokens ne.2.2 []
        let gd := dp.2.1
        match relLoop docId ed gd ed dp.2.2 with
        | none => none
        | some rl =>
          some (tk.1 ++ nc.1 ++ sn.1 ++ ne.1 ++ dp.1 ++ rl.1, rl.2)

/-- The document loop inside SpacyApp._annotate, after the reset:
process each text document in order, threading the identifier state. -/
def annotateCore (nerOpt : Option (String → List Tok))
    (nlpFn : String → SpacyDoc) (docs : List String) (st : IdState) :
    Option (List (List Ann) × IdState) :=
  match docs with
  | [] => some ([], st)
  | t :: rest =>
    match addToolOutput nerOpt nlpFn none t st with
    | none => none
    | some r1 =>
      match annotateCore nerOpt nlpFn rest r1.2 with
      | none => none
      | some r2 => some (r1.1 :: r2.1, r2.2)

/-- SpacyApp._annotate (line 89-94): its first statement is
Identifiers.reset(), so the incoming identifier state is discarded and
every batch starts from fresh counters. -/
def annotateDocs (nerOpt : Option (String → List Tok))
    (nlpFn : String → SpacyDoc) (docs : List String) (st : IdState) :
    Option (List (List Ann) × IdState) :=
  annotateCore nerOpt nlpFn docs idReset

/-! ## Concrete demonstration values and proof-side predicates -/

/-- A remote document whose fetch fails with a network error. -/
def demoRemoteDoc : TextDoc :=
  { location := some "http://example.org/doc.txt", textValue := "" }

/-- A fetch that always raises a network error. -/
def demoFailFetch : String → Except String String :=
  fun _ => Except.error "URLError"

/-- A concrete entity whose raw result has a non-string @types value. -/
def demoMalformedEnt : Ent :=
  { start := 0, stop := 1, rootI := 0, rootIdx := 0, rootText := "x",
    kbId := "kb", raw := some [("@URI", some "u"), ("@types", none)] }

/-- Two concrete tokens for the offset-table demonstrations. -/
def demoTokA : Tok :=
  { i := 0, idx := 0, text := "abc", tag := "T0", lemma_ := "l0", dep := "nsubj",
    headI := 1, headIdx := 4, headText := "de", headLemma := "lh", entType := "" }

/-- Second concrete token. -/
def demoTokB : Tok :=
  { i := 1, idx := 4, text := "de", tag := "T1", lemma_ := "l1", dep := "ROOT",
    headI := 1, headIdx := 4, headText := "de", headLemma := "lh", entType := "" }

/-- A two-character token marked as part of a named entity by the
uncased model, at offset 0 of the lowercased text "ab". -/
def demoNerTok : Tok :=
  { i := 0, idx := 0, text := "ab", tag := "", lemma_ := "", dep := "",
    headI := 0, headIdx := 0, headText := "", headLemma := "", entType := "PER" }

/-- An entity-registry entry whose key is token index 0. -/
def demoEntProps : EntProps :=
  { text := "abc", category := "Person", rootI := 0, rootText := "abc",
    kbId := "kb" }

/-- Does an annotation link entity-root a (as e1) to entity-root b
(as e2)?  (Read off the e1_root_i / e2_root_i properties.) -/
def relMatches (a b : Nat) (ann : Ann) : Bool :=
  decide (List.lookup "e1_root_i" ann.props = some (PVal.n a)) &&
  decide (List.lookup "e2_root_i" ann.props = some (PVal.n b))

/-- Do the governor entries recorded for i and j exist and carry the
same governor token index? -/
def govEq (gd : List (Nat × GovProps)) (i j : Nat) : Bool :=
  match List.lookup i gd, List.lookup j gd with
  | some g1, some g2 => decide (g1.governerI = g2.governerI)
  | _, _ => false

/-- A second entity-registry entry (root token index 2). -/
def demoEnt2 : EntProps :=
  { text := "de", category := "Place", rootI := 2, rootText := "de",
    kbId := "kb2" }

/-- A recorded governor entry (governor token index 1). -/
def demoGov : GovProps :=
  { dep := "nsubj", governerText := "loves", governerLemma := "love",
    governerI := 1 }

/-- A two-entity registry with keys 0 and 2. -/
def w1ed : List (Nat × EntProps) := [(0, demoEntProps), (2, demoEnt2)]

/-- Governor entries for both registry keys, sharing governor index 1. -/
def w1gd : List (Nat × GovProps) := [(0, demoGov), (2, demoGov)]

/-- The relation loop run on the two-entity registry. -/
def w1res : Option (List Ann × IdState) := relLoop none w1ed w1gd w1ed idReset

/-- Token "E1A" (entity-1 root, lemma LEMMA1, governed by token 1). -/
def c8tok0 : Tok :=
  { i := 0, idx := 0, text := "E1A", tag := "NNP", lemma_ := "LEMMA1",
    dep := "nsubj", headI := 1, headIdx := 4, headText := "loves",
    headLemma := "love", entType := "" }

/-- Token "loves" (the shared governor, its own head). -/
def c8tok1 : Tok :=
  { i := 1, idx := 4, text := "loves", tag := "VBZ", lemma_ := "love",
    dep := "ROOT", headI := 1, headIdx := 4, headText := "loves",
    headLemma := "love", entType := "" }

/-- Token "E2B" (entity-2 root, lemma LEMMA2, governed by token 1). -/
def c8tok2 : Tok :=
  { i := 2, idx := 10, text := "E2B", tag := "NNP", lemma_ := "LEMMA2",
    dep := "dobj", headI := 1, headIdx := 4, headText := "loves",
    headLemma := "love", entType := "" }

/-- Entity over token 0 with a Person DBpedia type. -/
def c8ent1 : Ent :=
  { start := 0, stop := 1, rootI := 0, rootIdx := 0, rootText := "E1A",
    kbId := "kb1", raw := some [("@types", some "DBpedia:Person")] }

/-- Entity over token 2 with a Place DBpedia type. -/
def c8ent2 : Ent :=
  { start := 2, stop := 3, rootI := 2, rootIdx := 10, rootText := "E2B",
    kbId := "kb2", raw := some [("@types", some "DBpedia:Place")] }

/-- A three-token document whose two entities share the governor. -/
def c8doc : SpacyDoc :=
  { tokens := [c8tok0, c8tok1, c8tok2], nounChunks := [],
    sents := [{ start := 0, stop := 3 }], ents := [c8ent1, c8ent2] }

/-- The document text. -/
def c8text : String := "E1A loves E2B"

/-- The full tool-output run on the three-token document. -/
def c8run : Option (List Ann × IdState) :=
  addToolOutput none (fun _ => c8doc) none c8text idReset

/-- Its annotations. -/
def c8anns : List Ann := (c8run.getD ([], idReset)).1

/-- A default annotation for list indexing. -/
def defaultAnn : Ann :=
  { attype := "", ident := "", docId := none, start := none, stop := none,
    props := [] }

/-- The single relation annotation of the two-entity registry run. -/
def w8ann : Ann := (w1res.getD ([], idReset)).1.getD 0 defaultAnn

/-- The property keys that carry document text. -/
def textKeys : List String :=
  ["text", "root_text", "dependent_text", "governer_text", "rel_text",
   "e1_text", "e2_text"]

/-- All text-carrying properties of an annotation are slices of
textOrig, and the "text" property of an offset-bearing annotation is
the slice at the annotation's own offsets. -/
def textFromOrig (textOrig : String) (ann : Ann) : Prop :=
  (∀ key ∈ textKeys, ∀ s, List.lookup key ann.props = some (PVal.s s) →
    ∃ a b, s = pySlice textOrig a b) ∧
  (∀ s a b, ann.start = some a → ann.stop = some b →
    List.lookup "text" ann.props = some (PVal.s s) → s = pySlice textOrig a b)

/-- Value of a little-endian digit list (proof helper for natRepr). -/
def ofDigitsRev : List Nat → Nat
  | [] => 0
  | d :: ds => d + 10 * ofDigitsRev ds

/-! ## Helper lemmas -/

theorem lookup_mem {α β : Type} [BEq α] [LawfulBEq α] {l : List (α × β)}
    {k : α} {v : β} (h : List.lookup k l = some v) : (k, v) ∈ l := by
  induction l with
  | nil => simp at h
  | cons kv rest ih =>
    rcases kv with ⟨k0, v0⟩
    rw [List.lookup_cons] at h
    split at h
    · next hbeq =>
      obtain rfl : k = k0 := eq_of_beq hbeq
      obtain rfl : v0 = v := by injection h
      exact List.mem_cons_self _ _
    · exact List.mem_cons_of_mem _ (ih h)

theorem lookup_dictInsert {α : Type} (d : List (Nat × α)) (k : Nat) (v : α)
    (j : Nat) :
    List.lookup j (dictInsert d k v) =
      if j = k then some v else List.lookup j d := by
  induction d with
  | nil =>
    by_cases hj : j = k
    · simp [dictInsert, List.lookup_cons, hj]
    · simp [dictInsert, List.lookup_cons, hj, beq_false_of_ne hj]
  | cons kv0 rest ih =>
    rcases kv0 with ⟨k0, v0⟩
    by_cases hk : k0 = k
    · subst hk
      by_cases hj : j = k0
      · simp [dictInsert, List.lookup_cons, hj]
      · simp [dictInsert, List.lookup_cons, hj, beq_false_of_ne hj]
    · by_cases hj : j = k0
      · subst hj
        have hjk : j ≠ k := by omega
        simp [dictInsert, hk, List.lookup_cons, hjk]
      · simp [dictInsert, hk, List.lookup_cons, hj, beq_false_of_ne hj, ih]

theorem mem_dictInsert {α : Type} {d : List (Nat × α)} {k : Nat} {v : α}
    {kv : Nat × α} (h : kv ∈ dictInsert d k v) : kv = (k, v) ∨ kv ∈ d := by
  induction d with
  | nil =>
    rw [dictInsert] at h
    simp at h
    exact Or.inl h
  | cons kv0 rest ih =>
    rw [dictInsert] at h
    split at h
    · rcases List.mem_cons.1 h with h1 | h1
      · exact Or.inl h1
      · exact Or.inr (List.mem_cons_of_mem _ h1)
    · rcases List.mem_cons.1 h with h1 | h1
      · exact Or.inr (h1 ▸ List.mem_cons_self _ _)
      · rcases ih h1 with h2 | h2
        · exact Or.inl h2
        · exact Or.inr (List.mem_cons_of_mem _ h2)

theorem tokIdxTbl_nat (toks : List Tok) (k : Nat) :
    tokIdxTbl toks (k : Int) = (toks.get? k).map tokEntry := by
  rw [tokIdxTbl]
  have h1 : ¬ ((k : Int) < 0) := by omega
  rw [if_neg h1]
  have h2 : ((k : Int)).toNat = k := by omega
  rw [h2]

theorem tokIdxTbl_neg_one (toks : List Tok) :
    tokIdxTbl toks ((0 : Int) - 1) = none := by
  rw [tokIdxTbl]
  norm_num

/-! ## C5: does a network error in _read_text propagate? -/

/-- C5 counterexample: _read_text has no try/except, so a network error
raised while fetching a remote document's location is returned to the
caller unchanged — it is not caught, contradicting the claim that such
a failure is caught and does not propagate. -/
theorem claim_C5_counterexample :
    read_text demoFailFetch demoRemoteDoc = Except.error "URLError" := rfl

/-- C5 (amended): a failure in reading a remote document (a network
error raised while fetching the document's location) propagates to the
caller of _read_text unhandled; nothing in _read_text catches it. -/
theorem claim_C5_network_error_propagates
    (fetch : String → Except String String) (doc : TextDoc) (loc e : String)
    (hloc : doc.location = some loc) (herr : fetch loc = Except.error e) :
    read_text fetch doc = Except.error e := by
  rw [read_text, hloc]
  exact herr

/-- C5 witness: the amended theorem applied to a concrete remote
document and a concrete failing fetch. -/
theorem claim_C5_witness :
    read_text demoFailFetch demoRemoteDoc = Except.error "URLError" ∧
    demoRemoteDoc.location = some "http://example.org/doc.txt" :=
  ⟨claim_C5_network_error_propagates demoFailFetch demoRemoteDoc
    "http://example.org/doc.txt" "URLError" rfl rfl, rfl⟩

/-! ## C6: malformed linking metadata gives no category and no entity -/

/-- C6: when the raw linking-service metadata is missing, or its @types
field is absent or not a string, find_dbpedia_type returns none rather
than raising, and the entity-loop step for such an entity emits no
NamedEntity annotation and adds nothing to entity_dict: it behaves
exactly like the loop on the remaining entities. -/
theorem claim_C6_lookup_failure_no_category
    (textOrig : String) (docId : Option String) (tbl : Int → Option (Nat × Nat))
    (ent : Ent) (rest : List Ent) (st : IdState) (ed : List (Nat × EntProps))
    (hmal : ent.raw = none ∨ ∃ fields, ent.raw = some fields ∧
      (List.lookup "@types" fields = none ∨
       List.lookup "@types" fields = some none)) :
    find_dbpedia_type ent.raw = none ∧
    entityLoop textOrig docId tbl (ent :: rest) st ed =
      entityLoop textOrig docId tbl rest st ed := by
  have hnone : find_dbpedia_type ent.raw = none := by
    rcases hmal with h | ⟨fields, hf, h⟩
    · rw [h]; rfl
    · rcases h with h | h <;> (rw [hf]; simp only [find_dbpedia_type]; rw [h])
  refine ⟨hnone, ?_⟩
  simp only [entityLoop]
  rw [hnone]

/-- C6 witness: the theorem applied to a concrete entity whose @types
value is not a string. -/
theorem claim_C6_witness :
    find_dbpedia_type demoMalformedEnt.raw = none ∧
    entityLoop "x" none (tokIdxTbl []) [demoMalformedEnt] idReset [] =
      entityLoop "x" none (tokIdxTbl []) [] idReset [] :=
  claim_C6_lookup_failure_no_category "x" none (tokIdxTbl []) demoMalformedEnt
    [] idReset []
    (Or.inr ⟨[("@URI", some "u"), ("@types", none)], rfl, Or.inr (by decide)⟩)

/-! ## C7: empty token-index ranges and the offset table -/

/-- C7 counterexample: for the empty range [1, 1) over a two-token
document, the lookup of token index end - 1 = 0 is inside the offset
table's domain and the span computation succeeds (returning the inverted
pair (4, 3)) instead of faulting, contradicting the claim that the
operation fails for every empty range. -/
theorem claim_C7_counterexample :
    tokIdxTbl [demoTokA, demoTokB] (((1 : Nat) : Int) - 1) ≠ none ∧
    computeSpan (tokIdxTbl [demoTokA, demoTokB]) 1 1 = some (4, 3) := by decide

/-- C7 (amended): for an empty range [k, k) over the offset table of a
document's tokens, the lookup faults exactly when k = 0 (token index
end - 1 = -1 is outside the table) or k is at least the token count
(token index start is outside the table); for 0 < k < token count both
lookups succeed and the operation returns the inverted pair
(start offset of token k, end offset of token k - 1) instead of
failing. -/

theorem claim_C7_empty_range (toks : List Tok) (k : Nat) :
    (computeSpan (tokIdxTbl toks) k k = none ↔ k = 0 ∨ toks.length ≤ k) ∧
    (1 ≤ k → k < toks.length →
      ∃ t1 t2, toks.get? k = some t1 ∧ toks.get? (k - 1) = some t2 ∧
        computeSpan (tokIdxTbl toks) k k =
          some (t1.idx, t2.idx + t2.text.length)) := by
  have hcs : ∀ s e : Nat, computeSpan (tokIdxTbl toks) s e = none ↔
      (tokIdxTbl toks (s : Int) = none ∨
       tokIdxTbl toks ((e : Int) - 1) = none) := by
    intro s e
    cases h1 : tokIdxTbl toks (s : Int) <;>
      cases h2 : tokIdxTbl toks ((e : Int) - 1) <;>
        simp [computeSpan, h1, h2]
  constructor
  · rw [hcs]
    rcases Nat.eq_zero_or_pos k with hk | hk
    · subst hk
      have hneg : ((0 : Nat) : Int) - 1 = (0 : Int) - 1 := by norm_num
      rw [hneg, tokIdxTbl_neg_one]
      simp
    · have hk1 : ((k : Int)) - 1 = ((k - 1 : Nat) : Int) := by omega
      rw [hk1, tokIdxTbl_nat, tokIdxTbl_nat]
      simp only [Option.map_eq_none', List.get?_eq_none]
      omega
  · intro h1 h2
    have hk1 : ((k : Int)) - 1 = ((k - 1 : Nat) : Int) := by omega
    have h3 : k - 1 < toks.length := by omega
    refine ⟨toks.get ⟨k, h2⟩, toks.get ⟨k - 1, h3⟩,
      List.get?_eq_get h2, List.get?_eq_get h3, ?_⟩
    have e1 : tokIdxTbl toks (k : Int) =
        some (tokEntry (toks.get ⟨k, h2⟩)) := by
      rw [tokIdxTbl_nat, List.get?_eq_get h2, Option.map_some']
    have e2 : tokIdxTbl toks ((k : Int) - 1) =
        some (tokEntry (toks.get ⟨k - 1, h3⟩)) := by
      rw [hk1, tokIdxTbl_nat, List.get?_eq_get h3, Option.map_some']
    simp [computeSpan, e1, e2, tokEntry]

/-- C7 witness: the amended theorem at the two-token document and the
empty range [1, 1): the none-characterization is false on both sides,
and the inverted span is returned. -/
theorem claim_C7_witness :
    ((computeSpan (tokIdxTbl [demoTokA, demoTokB]) 1 1 = none ↔
      (1 : Nat) = 0 ∨ [demoTokA, demoTokB].length ≤ 1) ∧
     (1 ≤ 1 → 1 < [demoTokA, demoTokB].length →
       ∃ t1 t2, [demoTokA, demoTokB].get? 1 = some t1 ∧
         [demoTokA, demoTokB].get? (1 - 1) = some t2 ∧
         computeSpan (tokIdxTbl [demoTokA, demoTokB]) 1 1 =
           some (t1.idx, t2.idx + t2.text.length))) :=
  claim_C7_empty_range [demoTokA, demoTokB] 1

/-! ## C4: the uncased-NER truecasing pre-pass -/

theorem data_mk (l : List Char) : (String.mk l).data = l := rfl

theorem get?_listUpperAt (cs : List Char) (i p : Nat) :
    (listUpperAt cs i).get? p =
      if p = i then (cs.get? p).map Char.toUpper else cs.get? p := by
  cases hc : cs.get? i with
  | none =>
    have hl : listUpperAt cs i = cs := by rw [listUpperAt, hc]
    rw [hl]
    by_cases hp : p = i
    · subst hp
      rw [if_pos rfl, hc]
      rfl
    · rw [if_neg hp]
  | some c =>
    have hl : listUpperAt cs i = cs.set i c.toUpper := by rw [listUpperAt, hc]
    rw [hl]
    by_cases hp : p = i
    · subst hp
      have hlt : p < cs.length := by
        rcases List.get?_eq_some.1 hc with ⟨h, _⟩
        exact h
      rw [if_pos rfl, hc]
      simp only [List.get?_eq_getElem?]
      rw [List.getElem?_set_self hlt]
      rfl
    · rw [if_neg hp]
      simp only [List.get?_eq_getElem?]
      rw [List.getElem?_set_ne (fun hc2 => hp hc2.symm)]

theorem prePass_foldl_get? (ts : List Tok) :
    ∀ cs : List Char,
    ((ts.filter (fun t => t.entType != "")).map Tok.idx).Nodup →
    ∀ p : Nat,
      (ts.foldl (fun cs t => if t.entType ≠ "" then listUpperAt cs t.idx else cs)
          cs).get? p =
        if ts.any (fun t => t.entType != "" && t.idx == p)
        then (cs.get? p).map Char.toUpper else cs.get? p := by
  induction ts with
  | nil =>
    intro cs _ p
    simp
  | cons t rest ih =>
    intro cs hnod p
    rw [List.foldl_cons, List.any_cons]
    by_cases ht : t.entType = ""
    · have hf : (t.entType != "") = false := by simp [ht]
      rw [if_neg (by simp [ht]), hf, Bool.false_and, Bool.false_or]
      have hnod2 : ((rest.filter (fun t => t.entType != "")).map Tok.idx).Nodup := by
        rwa [List.filter_cons, hf] at hnod
      exact ih cs hnod2 p
    · have hbt : (t.entType != "") = true := by simp [ht]
      have hnod1 : (t :: rest.filter (fun t => t.entType != "")).map Tok.idx =
          Tok.idx t :: (rest.filter (fun t => t.entType != "")).map Tok.idx := rfl
      have hcons : ((t :: rest).filter (fun t => t.entType != "")) =
          t :: rest.filter (fun t => t.entType != "") := by
        rw [List.filter_cons, hbt]
        simp
      rw [hcons, hnod1, List.nodup_cons] at hnod
      have hnod2 := hnod.2
      have hnotin := hnod.1
      rw [if_pos ht]
      rw [ih (listUpperAt cs t.idx) hnod2 p]
      by_cases hp : t.idx = p
      · subst hp
        have hany : rest.any (fun s => s.entType != "" && s.idx == t.idx) = false := by
          cases hca : rest.any (fun s => s.entType != "" && s.idx == t.idx) with
          | false => rfl
          | true =>
            exfalso
            rcases List.any_eq_true.1 hca with ⟨s, hs, hps⟩
            rcases Bool.and_eq_true_iff.1 hps with ⟨hs1, hs2⟩
            exact hnotin (List.mem_map.2 ⟨s, List.mem_filter.2 ⟨hs, hs1⟩,
              by simpa using hs2⟩)
        rw [get?_listUpperAt, hany]
        simp [hbt]
      · have hbp : (t.idx == p) = false := by simp [hp]
        have hieq : (listUpperAt cs t.idx).get? p = cs.get? p := by
          rw [get?_listUpperAt, if_neg (fun hc => hp hc.symm)]
        rw [hieq, hbp, Bool.and_false, Bool.false_or]

/-- C4 counterexample: with the uncased model recognizing the single
two-character token "ab" (at offset 0 of the lowercased text) as an
entity, the pre-pass produces "Ab" — it uppercases only the token's
first character — while the claimed behavior (uppercase every character
position covered by an entity token) would produce "AB". -/
theorem claim_C4_counterexample :
    prePass (fun _ => [demoNerTok]) "AB" = "Ab" ∧
    prePassClaim (fun _ => [demoNerTok]) "AB" = "AB" ∧
    prePass (fun _ => [demoNerTok]) "AB" ≠ prePassClaim (fun _ => [demoNerTok]) "AB" := by
  decide

/-- C4 (amended): when the uncased model is selected, the pre-pass
lowercases the whole document text and then uppercases exactly the
characters at the start offsets (tok.idx) of the tokens the uncased
model marks as part of a named entity — only each such token's first
character, not every character position the token covers (assuming the
entity tokens have pairwise distinct start offsets, as tokens of one
text do). -/
theorem claim_C4_truecasing (nerFn : String → List Tok) (text : String)
    (hnod : (((nerFn (pyLower text)).filter (fun t => t.entType != "")).map
      Tok.idx).Nodup) (p : Nat) :
    (prePass nerFn text).data.get? p =
      if (nerFn (pyLower text)).any (fun t => t.entType != "" && t.idx == p)
      then ((pyLower text).data.get? p).map Char.toUpper
      else (pyLower text).data.get? p := by
  rw [prePass, data_mk]
  exact prePass_foldl_get? (nerFn (pyLower text)) (pyLower text).data hnod p

/-- C4 witness: the amended theorem applied at the concrete entity
token, position 0 (the uppercased position) — and the resulting
character really is the uppercased first letter. -/
theorem claim_C4_witness :
    (prePass (fun _ => [demoNerTok]) "AB").data.get? 0 =
      (if (((fun (_ : String) => [demoNerTok]) (pyLower "AB")).any
          (fun t => t.entType != "" && t.idx == 0))
       then ((pyLower "AB").data.get? 0).map Char.toUpper
       else (pyLower "AB").data.get? 0) :=
  claim_C4_truecasing (fun _ => [demoNerTok]) "AB" (by decide) 0

/-! ## C2: offset alignment for chunks, sentences and entities -/

theorem spanLoop_spans (attype pfx textOrig : String) (docId : Option String)
    (tbl : Int → Option (Nat × Nat)) :
    ∀ (spans : List SpanRange) (st : IdState) (anns : List Ann) (st2 : IdState),
      spanLoop attype pfx textOrig docId tbl spans st = some (anns, st2) →
      ∀ sp ∈ spans, ∃ p1 p2 ann,
        computeSpan tbl sp.start sp.stop = some (p1, p2) ∧
        ann ∈ anns ∧ ann.start = some p1 ∧ ann.stop = some p2 := by
  intro spans
  induction spans with
  | nil =>
    intro st anns st2 h sp hsp
    simp at hsp
  | cons sp0 rest ih =>
    intro st anns st2 h sp hsp
    rw [spanLoop] at h
    split at h
    · exact Option.noConfusion h
    · next pq hcs =>
      dsimp only [] at h
      split at h
      · exact Option.noConfusion h
      · next r hrec =>
        simp only [Option.some.injEq, Prod.mk.injEq] at h
        obtain ⟨h1, _⟩ := h
        subst h1
        rcases List.mem_cons.1 hsp with hsp1 | hsp1
        · subst hsp1
          exact ⟨pq.1, pq.2, _, hcs, List.mem_cons_self _ _, rfl, rfl⟩
        · rcases ih _ r.1 r.2 hrec sp hsp1 with ⟨p1, p2, ann, hc, hm, hs1, hs2⟩
          exact ⟨p1, p2, ann, hc, List.mem_cons_of_mem _ hm, hs1, hs2⟩

theorem entityLoop_spans (textOrig : String) (docId : Option String)
    (tbl : Int → Option (Nat × Nat)) :
    ∀ (ents : List Ent) (st : IdState) (ed0 : List (Nat × EntProps))
      (anns : List Ann) (ed : List (Nat × EntProps)) (st2 : IdState),
      entityLoop textOrig docId tbl ents st ed0 = some (anns, ed, st2) →
      ∀ ent ∈ ents, find_dbpedia_type ent.raw ≠ none →
        ∃ p1 p2 ann,
          computeSpan tbl ent.start ent.stop = some (p1, p2) ∧
          ann ∈ anns ∧ ann.start = some p1 ∧ ann.stop = some p2 := by
  intro ents
  induction ents with
  | nil =>
    intro st ed0 anns ed st2 h ent hent
    simp at hent
  | cons ent0 rest ih =>
    intro st ed0 anns ed st2 h ent hent hcat
    rw [entityLoop] at h
    split at h
    · next hfind =>
      rcases List.mem_cons.1 hent with hent1 | hent1
      · exact absurd (hent1 ▸ hfind) hcat
      · exact ih st ed0 anns ed st2 h ent hent1 hcat
    · next category hfind =>
      split at h
      · exact Option.noConfusion h
      · next pq hcs =>
        dsimp only [] at h
        split at h
        · exact Option.noConfusion h
        · next r hrec =>
          simp only [Option.some.injEq, Prod.mk.injEq] at h
          obtain ⟨h1, _⟩ := h
          subst h1
          rcases List.mem_cons.1 hent with hent1 | hent1
          · subst hent1
            exact ⟨pq.1, pq.2, _, hcs, List.mem_cons_self _ _, rfl, rfl⟩
          · rcases ih _ _ r.1 r.2.1 r.2.2 hrec ent hent1 hcat with
              ⟨p1, p2, ann, hc, hm, hs1, hs2⟩
            exact ⟨p1, p2, ann, hc, List.mem_cons_of_mem _ hm, hs1, hs2⟩

/-- C2: for every linguistic unit reported by the pipeline as a
non-empty token-index range [s, e) within the document, both offset
table lookups succeed and the computed character span is exactly
(first component of the table entry for token s, second component of
the table entry for token e - 1); and every noun-chunk / sentence /
accepted-entity annotation emitted by the corresponding loop carries
exactly the span computed this way from its unit's range. -/
theorem claim_C2_offset_alignment (toks : List Tok) (textOrig : String)
    (docId : Option String) (attype pfx : String) :
    (∀ s e : Nat, s < e → e ≤ toks.length →
      ∃ a b, tokIdxTbl toks (s : Int) = some a ∧
        tokIdxTbl toks ((e : Int) - 1) = some b ∧
        computeSpan (tokIdxTbl toks) s e = some (a.1, b.2)) ∧
    (∀ (spans : List SpanRange) (st : IdState) (anns : List Ann) (st2 : IdState),
      spanLoop attype pfx textOrig docId (tokIdxTbl toks) spans st =
        some (anns, st2) →
      ∀ sp ∈ spans, ∃ p1 p2 ann,
        computeSpan (tokIdxTbl toks) sp.start sp.stop = some (p1, p2) ∧
        ann ∈ anns ∧ ann.start = some p1 ∧ ann.stop = some p2) ∧
    (∀ (ents : List Ent) (st : IdState) (ed0 : List (Nat × EntProps))
      (anns : List Ann) (ed : List (Nat × EntProps)) (st2 : IdState),
      entityLoop textOrig docId (tokIdxTbl toks) ents st ed0 =
        some (anns, ed, st2) →
      ∀ ent ∈ ents, find_dbpedia_type ent.raw ≠ none →
        ∃ p1 p2 ann,
          computeSpan (tokIdxTbl toks) ent.start ent.stop = some (p1, p2) ∧
          ann ∈ anns ∧ ann.start = some p1 ∧ ann.stop = some p2) := by
  refine ⟨?_, spanLoop_spans attype pfx textOrig docId (tokIdxTbl toks),
    entityLoop_spans textOrig docId (tokIdxTbl toks)⟩
  intro s e hse hlen
  have hs : s < toks.length := by omega
  have he : e - 1 < toks.length := by omega
  have hk1 : ((e : Int)) - 1 = ((e - 1 : Nat) : Int) := by omega
  have e1 : tokIdxTbl toks (s : Int) = some (tokEntry (toks.get ⟨s, hs⟩)) := by
    rw [tokIdxTbl_nat, List.get?_eq_get hs, Option.map_some']
  have e2 : tokIdxTbl toks ((e : Int) - 1) =
      some (tokEntry (toks.get ⟨e - 1, he⟩)) := by
    rw [hk1, tokIdxTbl_nat, List.get?_eq_get he, Option.map_some']
  refine ⟨_, _, e1, e2, ?_⟩
  simp [computeSpan, e1, e2]

/-- C2 witness: the first conjunct of the theorem at the two-token
document and the non-empty range [0, 2). -/
theorem claim_C2_witness :
    ∃ a b, tokIdxTbl [demoTokA, demoTokB] ((0 : Nat) : Int) = some a ∧
      tokIdxTbl [demoTokA, demoTokB] (((2 : Nat) : Int) - 1) = some b ∧
      computeSpan (tokIdxTbl [demoTokA, demoTokB]) 0 2 = some (a.1, b.2) :=
  (claim_C2_offset_alignment [demoTokA, demoTokB] "abc de" none "NounChunk"
    "nc").1 0 2 (by decide) (by decide)

/-! ## C10: the governor registry covers the entity registry -/

theorem depLoop_gd_lookup (textOrig : String) (docId : Option String)
    (ed : List (Nat × EntProps)) :
    ∀ (toks : List Tok) (st : IdState) (gd0 : List (Nat × GovProps)) (j : Nat),
      (List.lookup j (depLoop textOrig docId ed toks st gd0).2.1).isSome ↔
        ((List.lookup j gd0).isSome ∨
          ((∃ t ∈ toks, t.i = j) ∧ ∃ kv ∈ ed, kv.1 = j)) := by
  intro toks
  induction toks with
  | nil =>
    intro st gd0 j
    simp [depLoop]
  | cons t rest ih =>
    intro st gd0 j
    have hstep : (depLoop textOrig docId ed (t :: rest) st gd0).2.1 =
        (depLoop textOrig docId ed rest (idNew st "dep").2
          (if ed.any (fun kv => kv.1 = t.i) then dictInsert gd0 t.i
            { dep := t.dep,
              governerText := pySlice textOrig t.headIdx
                (t.headIdx + t.headText.length),
              governerLemma := t.headLemma, governerI := t.headI }
           else gd0)).2.1 := by
      rw [depLoop]
    rw [hstep, ih]
    by_cases hin : ed.any (fun kv => kv.1 = t.i)
    · rw [if_pos hin]
      rw [lookup_dictInsert]
      rcases List.any_eq_true.1 hin with ⟨kv0, hkv0, hkv0i⟩
      have hkv0i2 : kv0.1 = t.i := of_decide_eq_true hkv0i
      by_cases hj : j = t.i
      · subst hj
        rw [if_pos rfl]
        simp only [Option.isSome_some, true_or, true_iff]
        exact Or.inr ⟨⟨t, List.mem_cons_self _ _, rfl⟩, ⟨kv0, hkv0, hkv0i2⟩⟩
      · rw [if_neg hj]
        constructor
        · rintro (h1 | ⟨⟨t2, ht2, ht2i⟩, hc⟩)
          · exact Or.inl h1
          · exact Or.inr ⟨⟨t2, List.mem_cons_of_mem _ ht2, ht2i⟩, hc⟩
        · rintro (h1 | ⟨⟨t2, ht2, ht2i⟩, hc⟩)
          · exact Or.inl h1
          · rcases List.mem_cons.1 ht2 with ht3 | ht3
            · exact absurd (ht3 ▸ ht2i) (fun hc2 => hj hc2.symm)
            · exact Or.inr ⟨⟨t2, ht3, ht2i⟩, hc⟩
    · rw [if_neg hin]
      have hnotin : ∀ kv ∈ ed, kv.1 ≠ t.i := by
        intro kv hkv hc
        exact hin (List.any_eq_true.2 ⟨kv, hkv, decide_eq_true hc⟩)
      constructor
      · rintro (h1 | ⟨⟨t2, ht2, ht2i⟩, hc⟩)
        · exact Or.inl h1
        · exact Or.inr ⟨⟨t2, List.mem_cons_of_mem _ ht2, ht2i⟩, hc⟩
      · rintro (h1 | ⟨⟨t2, ht2, ht2i⟩, hc⟩)
        · exact Or.inl h1
        · rcases List.mem_cons.1 ht2 with ht3 | ht3
          · exfalso
            rcases hc with ⟨kv2, hkv2, hkv2i⟩
            apply hnotin kv2 hkv2
            rw [hkv2i, ← ht2i, ht3]
          · exact Or.inr ⟨⟨t2, ht3, ht2i⟩, hc⟩

theorem relInner_cons_ge (docId : Option String) (gd : List (Nat × GovProps))
    (i1 : Nat) (e1 : EntProps) (kv : Nat × EntProps)
    (rest : List (Nat × EntProps)) (st : IdState) (hlt : ¬ i1 < kv.1) :
    relInner docId gd i1 e1 (kv :: rest) st =
      relInner docId gd i1 e1 rest st := by
  rw [relInner, if_neg hlt]

theorem relInner_cons_found (docId : Option String) (gd : List (Nat × GovProps))
    (i1 : Nat) (e1 : EntProps) (kv : Nat × EntProps)
    (rest : List (Nat × EntProps)) (st : IdState) (g1 g2 : GovProps)
    (hlt : i1 < kv.1) (hg1 : List.lookup i1 gd = some g1)
    (hg2 : List.lookup kv.1 gd = some g2) :
    relInner docId gd i1 e1 (kv :: rest) st =
      (if g1.governerI = g2.governerI then
        match relInner docId gd i1 e1 rest (idNew st "rel").2 with
        | none => none
        | some r =>
          some (({ attype := "GenericRelation", ident := (idNew st "rel").1,
                   docId := docId, start := none, stop := none,
                   props := mkRelProps e1 g1 kv.2 g2 } : Ann) :: r.1, r.2)
       else relInner docId gd i1 e1 rest st) := by
  rw [relInner, if_pos hlt, hg1, hg2]

theorem relLoop_cons_some (docId : Option String) (ed : List (Nat × EntProps))
    (gd : List (Nat × GovProps)) (kv : Nat × EntProps)
    (rest : List (Nat × EntProps)) (st : IdState) (r1 : List Ann × IdState)
    (hinner : relInner docId gd kv.1 kv.2 ed st = some r1) :
    relLoop docId ed gd (kv :: rest) st =
      (match relLoop docId ed gd rest r1.2 with
       | none => none
       | some r2 => some (r1.1 ++ r2.1, r2.2)) := by
  rw [relLoop, hinner]

theorem relInner_isSome (docId : Option String) (gd : List (Nat × GovProps))
    (i1 : Nat) (e1 : EntProps) (hi1 : (List.lookup i1 gd).isSome) :
    ∀ (ed2 : List (Nat × EntProps)) (st : IdState),
      (∀ kv ∈ ed2, (List.lookup kv.1 gd).isSome) →
      relInner docId gd i1 e1 ed2 st ≠ none := by
  intro ed2
  induction ed2 with
  | nil =>
    intro st _
    simp [relInner]
  | cons kv rest ih =>
    intro st hall h
    by_cases hlt : i1 < kv.1
    · rcases Option.isSome_iff_exists.1 hi1 with ⟨g1, hg1⟩
      rcases Option.isSome_iff_exists.1 (hall kv (List.mem_cons_self _ _)) with
        ⟨g2, hg2⟩
      rw [relInner_cons_found docId gd i1 e1 kv rest st g1 g2 hlt hg1 hg2] at h
      by_cases hgov : g1.governerI = g2.governerI
      · rw [if_pos hgov] at h
        cases hrec : relInner docId gd i1 e1 rest (idNew st "rel").2 with
        | none =>
          exact ih _ (fun kv2 hkv2 => hall kv2 (List.mem_cons_of_mem _ hkv2)) hrec
        | some r =>
          rw [hrec] at h
          exact Option.noConfusion h
      · rw [if_neg hgov] at h
        exact ih _ (fun kv2 hkv2 => hall kv2 (List.mem_cons_of_mem _ hkv2)) h
    · rw [relInner_cons_ge docId gd i1 e1 kv rest st hlt] at h
      exact ih _ (fun kv2 hkv2 => hall kv2 (List.mem_cons_of_mem _ hkv2)) h

theorem relLoop_isSome (docId : Option String) (ed : List (Nat × EntProps))
    (gd : List (Nat × GovProps))
    (hall : ∀ kv ∈ ed, (List.lookup kv.1 gd).isSome) :
    ∀ (edIter : List (Nat × EntProps)) (st : IdState),
      (∀ kv ∈ edIter, (List.lookup kv.1 gd).isSome) →
      relLoop docId ed gd edIter st ≠ none := by
  intro edIter
  induction edIter with
  | nil =>
    intro st _
    simp [relLoop]
  | cons kv rest ih =>
    intro st hiter h
    cases hinner : relInner docId gd kv.1 kv.2 ed st with
    | none =>
      exact relInner_isSome docId gd kv.1 kv.2
        (hiter kv (List.mem_cons_self _ _)) ed st hall hinner
    | some r1 =>
      rw [relLoop_cons_some docId ed gd kv rest st r1 hinner] at h
      cases hrec : relLoop docId ed gd rest r1.2 with
      | none =>
        exact ih r1.2 (fun kv2 hk => hiter kv2 (List.mem_cons_of_mem _ hk)) hrec
      | some r2 =>
        rw [hrec] at h
        exact Option.noConfusion h

/-- C10: when every key of entity_dict is the index of some document
token (as it is, being an entity root's token index), the dependency
pass records a governor entry exactly for the token indices that are
keys of entity_dict; hence governer_dict contains every entity_dict
key, and the relation-extraction loop never faults on a missing
governor entry. -/
theorem claim_C10_governor_coverage (textOrig : String) (docId : Option String)
    (ed : List (Nat × EntProps)) (toks : List Tok) (st : IdState)
    (hcover : ∀ kv ∈ ed, ∃ t ∈ toks, t.i = kv.1) :
    (∀ j : Nat,
      (List.lookup j (depLoop textOrig docId ed toks st []).2.1).isSome ↔
        ((∃ t ∈ toks, t.i = j) ∧ ∃ kv ∈ ed, kv.1 = j)) ∧
    (∀ kv ∈ ed,
      (List.lookup kv.1 (depLoop textOrig docId ed toks st []).2.1).isSome) ∧
    (∀ st2 : IdState,
      relLoop docId ed (depLoop textOrig docId ed toks st []).2.1 ed st2 ≠
        none) := by
  have hchar : ∀ j : Nat,
      (List.lookup j (depLoop textOrig docId ed toks st []).2.1).isSome ↔
        ((∃ t ∈ toks, t.i = j) ∧ ∃ kv ∈ ed, kv.1 = j) := by
    intro j
    rw [depLoop_gd_lookup textOrig docId ed toks st [] j]
    simp
  have hsome : ∀ kv ∈ ed,
      (List.lookup kv.1 (depLoop textOrig docId ed toks st []).2.1).isSome := by
    intro kv hkv
    exact (hchar kv.1).2 ⟨hcover kv hkv, ⟨kv, hkv, rfl⟩⟩
  exact ⟨hchar, hsome, fun st2 =>
    relLoop_isSome docId ed _ hsome ed st2 hsome⟩

/-- C10 witness: the theorem applied to a registry with key 0 and the
token list containing a token with index 0. -/
theorem claim_C10_witness :
    (∀ j : Nat,
      (List.lookup j
        (depLoop "abc de" none [(0, demoEntProps)] [demoTokA, demoTokB]
          idReset []).2.1).isSome ↔
        ((∃ t ∈ [demoTokA, demoTokB], t.i = j) ∧
          ∃ kv ∈ [(0, demoEntProps)], kv.1 = j)) ∧
    (∀ kv ∈ [(0, demoEntProps)],
      (List.lookup kv.1
        (depLoop "abc de" none [(0, demoEntProps)] [demoTokA, demoTokB]
          idReset []).2.1).isSome) ∧
    (∀ st2 : IdState,
      relLoop none [(0, demoEntProps)]
        (depLoop "abc de" none [(0, demoEntProps)] [demoTokA, demoTokB]
          idReset []).2.1 [(0, demoEntProps)] st2 ≠ none) :=
  claim_C10_governor_coverage "abc de" none [(0, demoEntProps)]
    [demoTokA, demoTokB] idReset (by decide)

/-! ## C1: exactly one relation per unordered pair sharing a governor -/

theorem govEq_eq (gd : List (Nat × GovProps)) (i j : Nat) (g1 g2 : GovProps)
    (h1 : List.lookup i gd = some g1) (h2 : List.lookup j gd = some g2) :
    govEq gd i j = decide (g1.governerI = g2.governerI) := by
  rw [govEq, h1, h2]

theorem relMatches_mkRelProps (a b : Nat) (e1 : EntProps) (g1 : GovProps)
    (e2 : EntProps) (g2 : GovProps) (ann : Ann)
    (hprops : ann.props = mkRelProps e1 g1 e2 g2) :
    relMatches a b ann = (decide (e1.rootI = a) && decide (e2.rootI = b)) := by
  simp [relMatches, hprops, mkRelProps, List.lookup]

theorem relInner_cons_fail (docId : Option String) (gd : List (Nat × GovProps))
    (i1 : Nat) (e1 : EntProps) (kv : Nat × EntProps)
    (rest : List (Nat × EntProps)) (st : IdState) (hlt : i1 < kv.1)
    (hfail : List.lookup i1 gd = none ∨ List.lookup kv.1 gd = none) :
    relInner docId gd i1 e1 (kv :: rest) st = none := by
  rw [relInner, if_pos hlt]
  cases hg1 : List.lookup i1 gd with
  | none =>
    cases hg2 : List.lookup kv.1 gd with
    | none => rfl
    | some g2 => rfl
  | some g1 =>
    cases hg2 : List.lookup kv.1 gd with
    | none => rfl
    | some g2 =>
      exfalso
      rcases hfail with h | h
      · rw [hg1] at h
        exact Option.noConfusion h
      · rw [hg2] at h
        exact Option.noConfusion h

theorem relInner_countP (docId : Option String) (gd : List (Nat × GovProps))
    (i1 : Nat) (e1 : EntProps) (a b : Nat) (he1 : e1.rootI = i1) :
    ∀ (ed2 : List (Nat × EntProps)) (st : IdState) (anns : List Ann)
      (st2 : IdState),
      (∀ kv ∈ ed2, (kv.2).rootI = kv.1) →
      relInner docId gd i1 e1 ed2 st = some (anns, st2) →
      anns.countP (relMatches a b) =
        ed2.countP (fun kv =>
          decide (i1 = a) && decide (kv.1 = b) && decide (i1 < kv.1) &&
            govEq gd i1 kv.1) := by
  intro ed2
  induction ed2 with
  | nil =>
    intro st anns st2 _ h
    rw [relInner] at h
    simp only [Option.some.injEq, Prod.mk.injEq] at h
    obtain ⟨h1, _⟩ := h
    subst h1
    simp
  | cons kv rest ih =>
    intro st anns st2 hroot h
    by_cases hlt : i1 < kv.1
    · cases hg1 : List.lookup i1 gd with
      | none =>
        rw [relInner_cons_fail docId gd i1 e1 kv rest st hlt (Or.inl hg1)] at h
        exact Option.noConfusion h
      | some g1 =>
        cases hg2 : List.lookup kv.1 gd with
        | none =>
          rw [relInner_cons_fail docId gd i1 e1 kv rest st hlt (Or.inr hg2)] at h
          exact Option.noConfusion h
        | some g2 =>
          rw [relInner_cons_found docId gd i1 e1 kv rest st g1 g2 hlt hg1
            hg2] at h
          by_cases hgov : g1.governerI = g2.governerI
          · rw [if_pos hgov] at h
            cases hrec : relInner docId gd i1 e1 rest (idNew st "rel").2 with
            | none =>
              rw [hrec] at h
              exact Option.noConfusion h
            | some r =>
              rw [hrec] at h
              simp only [Option.some.injEq, Prod.mk.injEq] at h
              obtain ⟨h1, _⟩ := h
              subst h1
              rw [List.countP_cons, List.countP_cons,
                ih _ r.1 r.2 (fun kv2 hk => hroot kv2 (List.mem_cons_of_mem _ hk))
                  (by rw [hrec]),
                relMatches_mkRelProps a b e1 g1 kv.2 g2 _ rfl, he1,
                hroot kv (List.mem_cons_self _ _),
                govEq_eq gd i1 kv.1 g1 g2 hg1 hg2]
              simp [hlt, hgov]
          · rw [if_neg hgov] at h
            rw [ih _ anns st2
              (fun kv2 hk => hroot kv2 (List.mem_cons_of_mem _ hk)) h,
              List.countP_cons, govEq_eq gd i1 kv.1 g1 g2 hg1 hg2]
            simp [hgov]
    · rw [relInner_cons_ge docId gd i1 e1 kv rest st hlt] at h
      rw [ih _ anns st2 (fun kv2 hk => hroot kv2 (List.mem_cons_of_mem _ hk)) h,
        List.countP_cons]
      simp [hlt]

theorem relLoop_cons_none (docId : Option String) (ed : List (Nat × EntProps))
    (gd : List (Nat × GovProps)) (kv : Nat × EntProps)
    (rest : List (Nat × EntProps)) (st : IdState)
    (hinner : relInner docId gd kv.1 kv.2 ed st = none) :
    relLoop docId ed gd (kv :: rest) st = none := by
  rw [relLoop, hinner]

theorem relInner_pred_count (ed : List (Nat × EntProps))
    (gd : List (Nat × GovProps)) (i1 a b : Nat) :
    ed.countP (fun kv =>
        decide (i1 = a) && decide (kv.1 = b) && decide (i1 < kv.1) &&
          govEq gd i1 kv.1) =
      if i1 = a then
        ed.countP (fun kv =>
          decide (kv.1 = b) && decide (a < kv.1) && govEq gd a kv.1)
      else 0 := by
  by_cases hia : i1 = a
  · subst hia
    rw [if_pos rfl]
    simp
  · rw [if_neg hia]
    simp [hia]

theorem relLoop_countP (docId : Option String) (ed : List (Nat × EntProps))
    (gd : List (Nat × GovProps)) (a b : Nat)
    (hroot : ∀ kv ∈ ed, (kv.2).rootI = kv.1) :
    ∀ (edIter : List (Nat × EntProps)) (st : IdState) (anns : List Ann)
      (st2 : IdState),
      (∀ kv ∈ edIter, (kv.2).rootI = kv.1) →
      relLoop docId ed gd edIter st = some (anns, st2) →
      anns.countP (relMatches a b) =
        edIter.countP (fun kv => decide (kv.1 = a)) *
          ed.countP (fun kv =>
            decide (kv.1 = b) && decide (a < kv.1) && govEq gd a kv.1) := by
  intro edIter
  induction edIter with
  | nil =>
    intro st anns st2 _ h
    rw [relLoop] at h
    simp only [Option.some.injEq, Prod.mk.injEq] at h
    obtain ⟨h1, _⟩ := h
    subst h1
    simp
  | cons kv rest ih =>
    intro st anns st2 hiter h
    cases hinner : relInner docId gd kv.1 kv.2 ed st with
    | none =>
      rw [relLoop_cons_none docId ed gd kv rest st hinner] at h
      exact Option.noConfusion h
    | some r1 =>
      rw [relLoop_cons_some docId ed gd kv rest st r1 hinner] at h
      cases hrec : relLoop docId ed gd rest r1.2 with
      | none =>
        rw [hrec] at h
        exact Option.noConfusion h
      | some r2 =>
        rw [hrec] at h
        simp only [Option.some.injEq, Prod.mk.injEq] at h
        obtain ⟨h1, _⟩ := h
        subst h1
        rw [List.countP_append,
          relInner_countP docId gd kv.1 kv.2 a b
            (hiter kv (List.mem_cons_self _ _)) ed st r1.1 r1.2 hroot
            (by rw [hinner]),
          relInner_pred_count ed gd kv.1 a b,
          ih r1.2 r2.1 r2.2 (fun kv2 hk => hiter kv2 (List.mem_cons_of_mem _ hk))
            (by rw [hrec]),
          List.countP_cons]
        by_cases hka : kv.1 = a
        · rw [if_pos hka]
          simp [hka]
          ring
        · rw [if_neg hka]
          simp [hka]

theorem countP_key_eq_one (ed : List (Nat × EntProps)) (a : Nat) (ea : EntProps)
    (hnod : (ed.map Prod.fst).Nodup) (ha : (a, ea) ∈ ed) :
    ed.countP (fun kv => decide (kv.1 = a)) = 1 := by
  induction ed with
  | nil => simp at ha
  | cons kv rest ih =>
    rw [List.map_cons, List.nodup_cons] at hnod
    rw [List.countP_cons]
    rcases List.mem_cons.1 ha with h1 | h1
    · have hk : kv.1 = a := by rw [← h1]
      have hz : rest.countP (fun kv => decide (kv.1 = a)) = 0 := by
        rw [List.countP_eq_zero]
        intro kv2 hkv2
        simp only [decide_eq_true_eq]
        intro hc
        exact hnod.1 (hk ▸ hc ▸ List.mem_map.2 ⟨kv2, hkv2, rfl⟩)
      rw [hz]
      simp [hk]
    · have hk : kv.1 ≠ a := by
        intro hc
        exact hnod.1 (hc ▸ List.mem_map.2 ⟨(a, ea), h1, rfl⟩)
      rw [ih hnod.2 h1]
      simp [hk]

/-- C1: over the entity registry built by the entity pass (whose keys
are pairwise distinct and store their own root index), a successful run
of the relation loop emits, for every unordered pair of distinct
registry keys a < b, exactly one GenericRelation annotation linking a
and b when their recorded governors carry the same governor token
index, and none when the governor indices differ; no annotation links
the pair in the reverse order, so there is no duplication and no
further filtering. -/
theorem claim_C1_one_relation_per_pair (docId : Option String)
    (ed : List (Nat × EntProps)) (gd : List (Nat × GovProps)) (st : IdState)
    (anns : List Ann) (st2 : IdState) (a b : Nat) (ea eb : EntProps)
    (g1 g2 : GovProps)
    (hnod : (ed.map Prod.fst).Nodup)
    (hroot : ∀ kv ∈ ed, (kv.2).rootI = kv.1)
    (hrun : relLoop docId ed gd ed st = some (anns, st2))
    (ha : (a, ea) ∈ ed) (hb : (b, eb) ∈ ed) (hab : a < b)
    (hg1 : List.lookup a gd = some g1) (hg2 : List.lookup b gd = some g2) :
    anns.countP (relMatches a b) =
      (if g1.governerI = g2.governerI then 1 else 0) ∧
    anns.countP (relMatches b a) = 0 := by
  constructor
  · rw [relLoop_countP docId ed gd a b hroot ed st anns st2 hroot hrun,
      countP_key_eq_one ed a ea hnod ha, Nat.one_mul]
    by_cases hgov : g1.governerI = g2.governerI
    · rw [if_pos hgov]
      have hcong : ∀ kv ∈ ed,
          ((decide (kv.1 = b) && decide (a < kv.1) && govEq gd a kv.1) = true ↔
            decide (kv.1 = b) = true) := by
        intro kv _
        by_cases hkb : kv.1 = b
        · simp [hkb, hab, govEq_eq gd a b g1 g2 hg1 hg2, hgov]
        · simp [hkb]
      rw [List.countP_congr hcong]
      exact countP_key_eq_one ed b eb hnod hb
    · rw [if_neg hgov]
      rw [List.countP_eq_zero]
      intro kv hkv
      by_cases hkb : kv.1 = b
      · simp [hkb, govEq_eq gd a b g1 g2 hg1 hg2, hgov]
      · simp [hkb]
  · rw [relLoop_countP docId ed gd b a hroot ed st anns st2 hroot hrun]
    have hz : ed.countP (fun kv =>
        decide (kv.1 = a) && decide (b < kv.1) && govEq gd b kv.1) = 0 := by
      rw [List.countP_eq_zero]
      intro kv hkv
      by_cases hka : kv.1 = a
      · have hba : ¬ b < a := by omega
        simp [hka, hba]
      · simp [hka]
    rw [hz, Nat.mul_zero]

/-- C1 witness: the theorem applied to the concrete two-entity registry
whose entries share a governor: exactly one relation links 0 to 2 and
none links 2 to 0. -/
theorem claim_C1_witness :
    (w1res.getD ([], idReset)).1.countP (relMatches 0 2) =
      (if demoGov.governerI = demoGov.governerI then 1 else 0) ∧
    (w1res.getD ([], idReset)).1.countP (relMatches 2 0) = 0 :=
  claim_C1_one_relation_per_pair none w1ed w1gd idReset
    (w1res.getD ([], idReset)).1 (w1res.getD ([], idReset)).2 0 2
    demoEntProps demoEnt2 demoGov demoGov (by decide) (by decide) (by decide)
    (by decide) (by decide) (by decide) (by decide) (by decide)

/-! ## C8: what a relation record captures -/

theorem relInner_anns (docId : Option String) (gd : List (Nat × GovProps))
    (i1 : Nat) (e1 : EntProps) :
    ∀ (ed2 : List (Nat × EntProps)) (st : IdState) (anns : List Ann)
      (st2 : IdState),
      relInner docId gd i1 e1 ed2 st = some (anns, st2) →
      ∀ ann ∈ anns, ∃ i2 e2 g1 g2,
        (i2, e2) ∈ ed2 ∧ i1 < i2 ∧
        List.lookup i1 gd = some g1 ∧ List.lookup i2 gd = some g2 ∧
        g1.governerI = g2.governerI ∧
        ann.attype = "GenericRelation" ∧ ann.start = none ∧ ann.stop = none ∧
        ann.props = mkRelProps e1 g1 e2 g2 := by
  intro ed2
  induction ed2 with
  | nil =>
    intro st anns st2 h ann hann
    rw [relInner] at h
    simp only [Option.some.injEq, Prod.mk.injEq] at h
    obtain ⟨h1, _⟩ := h
    subst h1
    simp at hann
  | cons kv rest ih =>
    intro st anns st2 h ann hann
    by_cases hlt : i1 < kv.1
    · rcases Option.eq_none_or_eq_some (List.lookup i1 gd) with hg1 | ⟨g1, hg1⟩
      · rw [relInner_cons_fail docId gd i1 e1 kv rest st hlt (Or.inl hg1)] at h
        exact Option.noConfusion h
      · rcases Option.eq_none_or_eq_some (List.lookup kv.1 gd) with
          hg2 | ⟨g2, hg2⟩
        · rw [relInner_cons_fail docId gd i1 e1 kv rest st hlt (Or.inr hg2)] at h
          exact Option.noConfusion h
        · rw [relInner_cons_found docId gd i1 e1 kv rest st g1 g2 hlt hg1
            hg2] at h
          by_cases hgov : g1.governerI = g2.governerI
          · rw [if_pos hgov] at h
            cases hrec : relInner docId gd i1 e1 rest (idNew st "rel").2 with
            | none =>
              rw [hrec] at h
              exact Option.noConfusion h
            | some r =>
              rw [hrec] at h
              simp only [Option.some.injEq, Prod.mk.injEq] at h
              obtain ⟨h1, _⟩ := h
              subst h1
              rcases List.mem_cons.1 hann with hann1 | hann1
              · subst hann1
                exact ⟨kv.1, kv.2, g1, g2, List.mem_cons_self _ _, hlt, hg1,
                  hg2, hgov, rfl, rfl, rfl, rfl⟩
              · rcases ih _ r.1 r.2 (by rw [hrec]) ann hann1 with
                  ⟨i2, e2, g1b, g2b, hmem, hrest⟩
                exact ⟨i2, e2, g1b, g2b, List.mem_cons_of_mem _ hmem, hrest⟩
          · rw [if_neg hgov] at h
            rcases ih _ anns st2 h ann hann with
              ⟨i2, e2, g1b, g2b, hmem, hrest⟩
            exact ⟨i2, e2, g1b, g2b, List.mem_cons_of_mem _ hmem, hrest⟩
    · rw [relInner_cons_ge docId gd i1 e1 kv rest st hlt] at h
      rcases ih _ anns st2 h ann hann with ⟨i2, e2, g1b, g2b, hmem, hrest⟩
      exact ⟨i2, e2, g1b, g2b, List.mem_cons_of_mem _ hmem, hrest⟩

theorem relLoop_anns (docId : Option String)
    (ed : List (Nat × EntProps)) (gd : List (Nat × GovProps)) :
    ∀ (edIter : List (Nat × EntProps)) (st : IdState) (anns : List Ann)
      (st2 : IdState),
      relLoop docId ed gd edIter st = some (anns, st2) →
      ∀ ann ∈ anns, ∃ i1 e1 i2 e2 g1 g2,
        (i1, e1) ∈ edIter ∧ (i2, e2) ∈ ed ∧ i1 < i2 ∧
        List.lookup i1 gd = some g1 ∧ List.lookup i2 gd = some g2 ∧
        g1.governerI = g2.governerI ∧
        ann.attype = "GenericRelation" ∧ ann.start = none ∧ ann.stop = none ∧
        ann.props = mkRelProps e1 g1 e2 g2 := by
  intro edIter
  induction edIter with
  | nil =>
    intro st anns st2 h ann hann
    rw [relLoop] at h
    simp only [Option.some.injEq, Prod.mk.injEq] at h
    obtain ⟨h1, _⟩ := h
    subst h1
    simp at hann
  | cons kv rest ih =>
    intro st anns st2 h ann hann
    cases hinner : relInner docId gd kv.1 kv.2 ed st with
    | none =>
      rw [relLoop_cons_none docId ed gd kv rest st hinner] at h
      exact Option.noConfusion h
    | some r1 =>
      rw [relLoop_cons_some docId ed gd kv rest st r1 hinner] at h
      cases hrec : relLoop docId ed gd rest r1.2 with
      | none =>
        rw [hrec] at h
        exact Option.noConfusion h
      | some r2 =>
        rw [hrec] at h
        simp only [Option.some.injEq, Prod.mk.injEq] at h
        obtain ⟨h1, _⟩ := h
        subst h1
        rcases List.mem_append.1 hann with hann1 | hann1
        · rcases relInner_anns docId gd kv.1 kv.2 ed st r1.1 r1.2
            (by rw [hinner]) ann hann1 with
            ⟨i2, e2, g1, g2, hmem2, hlt, hg1, hg2, hgov, hrest⟩
          exact ⟨kv.1, kv.2, i2, e2, g1, g2, List.mem_cons_self _ _, hmem2,
            hlt, hg1, hg2, hgov, hrest⟩
        · rcases ih r1.2 r2.1 r2.2 (by rw [hrec]) ann hann1 with
            ⟨i1, e1, i2, e2, g1, g2, hmem1, hrest⟩
          exact ⟨i1, e1, i2, e2, g1, g2, List.mem_cons_of_mem _ hmem1, hrest⟩

/-- C8 (amended): every GenericRelation annotation emitted by the
relation loop has exactly the properties built by mkRelProps: the
governor's text, lemma and token index (rel_text / rel_lemma / rel_i),
and for each linked entity its text, root token index, knowledge-base
id and dependency label (eK_text / eK_root_i / eK_kb_id / eK_dep) —
the linked entities' lemmas are not among the captured attributes. -/
theorem claim_C8_relation_attributes (docId : Option String)
    (ed : List (Nat × EntProps)) (gd : List (Nat × GovProps)) :
    ∀ (edIter : List (Nat × EntProps)) (st : IdState) (anns : List Ann)
      (st2 : IdState),
      relLoop docId ed gd edIter st = some (anns, st2) →
      ∀ ann ∈ anns, ∃ i1 e1 i2 e2 g1 g2,
        (i1, e1) ∈ edIter ∧ (i2, e2) ∈ ed ∧ i1 < i2 ∧
        List.lookup i1 gd = some g1 ∧ List.lookup i2 gd = some g2 ∧
        g1.governerI = g2.governerI ∧
        ann.attype = "GenericRelation" ∧ ann.start = none ∧ ann.stop = none ∧
        ann.props = mkRelProps e1 g1 e2 g2 :=
  relLoop_anns docId ed gd

/-- C8 counterexample: the run emits a GenericRelation annotation for
the two entities, whose root tokens' lemmas are "LEMMA1" and "LEMMA2"
— yet no property value of any emitted GenericRelation annotation
equals either lemma, so the record does not capture the linked
entities' lemmas. -/
theorem claim_C8_counterexample :
    (c8anns.any (fun r => r.attype == "GenericRelation")) = true ∧
    (c8anns.all (fun r =>
      !(r.attype == "GenericRelation") ||
        r.props.all (fun kv =>
          kv.2 != PVal.s "LEMMA1" && kv.2 != PVal.s "LEMMA2"))) = true ∧
    c8tok0.lemma_ = "LEMMA1" ∧ c8tok2.lemma_ = "LEMMA2" ∧
    c8tok0.i = c8ent1.rootI ∧ c8tok2.i = c8ent2.rootI := by
  decide

/-- C8 witness: the amended theorem applied to the concrete two-entity
registry run and its emitted relation annotation. -/
theorem claim_C8_witness :
    ∃ i1 e1 i2 e2 g1 g2,
      (i1, e1) ∈ w1ed ∧ (i2, e2) ∈ w1ed ∧ i1 < i2 ∧
      List.lookup i1 w1gd = some g1 ∧ List.lookup i2 w1gd = some g2 ∧
      g1.governerI = g2.governerI ∧
      w8ann.attype = "GenericRelation" ∧ w8ann.start = none ∧
      w8ann.stop = none ∧ w8ann.props = mkRelProps e1 g1 e2 g2 :=
  claim_C8_relation_attributes none w1ed w1gd w1ed idReset
    (w1res.getD ([], idReset)).1 (w1res.getD ([], idReset)).2 (by decide)
    w8ann (by decide)

/-! ## C9: every text attribute is a slice of the original text -/

theorem tokenLoop_textFromOrig (textOrig : String) (docId : Option String) :
    ∀ (toks : List Tok) (st : IdState),
      ∀ ann ∈ (tokenLoop textOrig docId toks st).1, textFromOrig textOrig ann := by
  intro toks
  induction toks with
  | nil =>
    intro st ann hann
    simp [tokenLoop] at hann
  | cons t rest ih =>
    intro st ann hann
    rw [tokenLoop] at hann
    dsimp only [] at hann
    rcases List.mem_cons.1 hann with h1 | h1
    · subst h1
      constructor
      · intro key hkey s hs
        fin_cases hkey <;> simp [List.lookup] at hs
        exact ⟨t.idx, t.idx + t.text.length, hs.symm⟩
      · intro s a b hsa hsb hs
        simp only [Option.some.injEq] at hsa hsb
        simp [List.lookup] at hs
        rw [← hsa, ← hsb]
        exact hs.symm
    · exact ih _ ann h1

theorem spanLoop_textFromOrig (attype pfx textOrig : String)
    (docId : Option String) (tbl : Int → Option (Nat × Nat)) :
    ∀ (spans : List SpanRange) (st : IdState) (anns : List Ann)
      (st2 : IdState),
      spanLoop attype pfx textOrig docId tbl spans st = some (anns, st2) →
      ∀ ann ∈ anns, textFromOrig textOrig ann := by
  intro spans
  induction spans with
  | nil =>
    intro st anns st2 h ann hann
    rw [spanLoop] at h
    simp only [Option.some.injEq, Prod.mk.injEq] at h
    obtain ⟨h1, _⟩ := h
    subst h1
    simp at hann
  | cons sp0 rest ih =>
    intro st anns st2 h ann hann
    rw [spanLoop] at h
    split at h
    · exact Option.noConfusion h
    · next pq hcs =>
      dsimp only [] at h
      split at h
      · exact Option.noConfusion h
      · next r hrec =>
        simp only [Option.some.injEq, Prod.mk.injEq] at h
        obtain ⟨h1, _⟩ := h
        subst h1
        rcases List.mem_cons.1 hann with h1 | h1
        · subst h1
          constructor
          · intro key hkey s hs
            fin_cases hkey <;> simp [List.lookup] at hs
            exact ⟨pq.1, pq.2, hs.symm⟩
          · intro s a b hsa hsb hs
            simp only [Option.some.injEq] at hsa hsb
            simp [List.lookup] at hs
            rw [← hsa, ← hsb]
            exact hs.symm
        · exact ih _ r.1 r.2 hrec ann h1

theorem entityLoop_textFromOrig (textOrig : String) (docId : Option String)
    (tbl : Int → Option (Nat × Nat)) :
    ∀ (ents : List Ent) (st : IdState) (ed0 : List (Nat × EntProps))
      (anns : List Ann) (ed : List (Nat × EntProps)) (st2 : IdState),
      entityLoop textOrig docId tbl ents st ed0 = some (anns, ed, st2) →
      ∀ ann ∈ anns, textFromOrig textOrig ann := by
  intro ents
  induction ents with
  | nil =>
    intro st ed0 anns ed st2 h ann hann
    rw [entityLoop] at h
    simp only [Option.some.injEq, Prod.mk.injEq] at h
    obtain ⟨h1, _⟩ := h
    subst h1
    simp at hann
  | cons ent0 rest ih =>
    intro st ed0 anns ed st2 h ann hann
    rw [entityLoop] at h
    split at h
    · exact ih st ed0 anns ed st2 h ann hann
    · next category hfind =>
      split at h
      · exact Option.noConfusion h
      · next pq hcs =>
        dsimp only [] at h
        split at h
        · exact Option.noConfusion h
        · next r hrec =>
          simp only [Option.some.injEq, Prod.mk.injEq] at h
          obtain ⟨h1, _⟩ := h
          subst h1
          rcases List.mem_cons.1 hann with h1 | h1
          · subst h1
            constructor
            · intro key hkey s hs
              fin_cases hkey <;>
                simp [List.lookup, EntProps.toProps] at hs
              · exact ⟨pq.1, pq.2, hs.symm⟩
              · exact ⟨ent0.rootIdx, ent0.rootIdx + ent0.rootText.length,
                  hs.symm⟩
            · intro s a b hsa hsb hs
              simp only [Option.some.injEq] at hsa hsb
              simp [List.lookup, EntProps.toProps] at hs
              rw [← hsa, ← hsb]
              exact hs.symm
          · exact ih _ _ r.1 r.2.1 r.2.2 hrec ann h1

theorem depLoop_textFromOrig (textOrig : String) (docId : Option String)
    (ed : List (Nat × EntProps)) :
    ∀ (toks : List Tok) (st : IdState) (gd0 : List (Nat × GovProps)),
      ∀ ann ∈ (depLoop textOrig docId ed toks st gd0).1,
        textFromOrig textOrig ann := by
  intro toks
  induction toks with
  | nil =>
    intro st gd0 ann hann
    simp [depLoop] at hann
  | cons t rest ih =>
    intro st gd0 ann hann
    rw [depLoop] at hann
    dsimp only [] at hann
    rcases List.mem_cons.1 hann with h1 | h1
    · subst h1
      constructor
      · intro key hkey s hs
        fin_cases hkey <;> simp [List.lookup] at hs
        · exact ⟨t.idx, t.idx + t.text.length, hs.symm⟩
        · exact ⟨t.headIdx, t.headIdx + t.headText.length, hs.symm⟩
      · intro s a b hsa hsb hs
        exact Option.noConfusion hsa
    · exact ih _ _ ann h1

theorem entityLoop_ed_text (textOrig : String) (docId : Option String)
    (tbl : Int → Option (Nat × Nat)) :
    ∀ (ents : List Ent) (st : IdState) (ed0 : List (Nat × EntProps))
      (anns : List Ann) (ed : List (Nat × EntProps)) (st2 : IdState),
      entityLoop textOrig docId tbl ents st ed0 = some (anns, ed, st2) →
      (∀ kv ∈ ed0, ∃ a b, (kv.2).text = pySlice textOrig a b) →
      ∀ kv ∈ ed, ∃ a b, (kv.2).text = pySlice textOrig a b := by
  intro ents
  induction ents with
  | nil =>
    intro st ed0 anns ed st2 h h0 kv hkv
    rw [entityLoop] at h
    simp only [Option.some.injEq, Prod.mk.injEq] at h
    obtain ⟨_, h2, _⟩ := h
    subst h2
    exact h0 kv hkv
  | cons ent0 rest ih =>
    intro st ed0 anns ed st2 h h0 kv hkv
    rw [entityLoop] at h
    split at h
    · exact ih st ed0 anns ed st2 h h0 kv hkv
    · next category hfind =>
      split at h
      · exact Option.noConfusion h
      · next pq hcs =>
        dsimp only [] at h
        split at h
        · exact Option.noConfusion h
        · next r hrec =>
          obtain ⟨rAnns, rEd, rSt⟩ := r
          simp only [Option.some.injEq, Prod.mk.injEq] at h
          obtain ⟨_, h2, _⟩ := h
          subst h2
          refine ih _ _ rAnns rEd rSt hrec ?_ kv hkv
          intro kv2 hkv2
          rcases mem_dictInsert hkv2 with h3 | h3
          · subst h3
            exact ⟨pq.1, pq.2, rfl⟩
          · exact h0 kv2 h3

theorem depLoop_gd_text (textOrig : String) (docId : Option String)
    (ed : List (Nat × EntProps)) :
    ∀ (toks : List Tok) (st : IdState) (gd0 : List (Nat × GovProps)),
      (∀ kv ∈ gd0, ∃ a b, (kv.2).governerText = pySlice textOrig a b) →
      ∀ kv ∈ (depLoop textOrig docId ed toks st gd0).2.1,
        ∃ a b, (kv.2).governerText = pySlice textOrig a b := by
  intro toks
  induction toks with
  | nil =>
    intro st gd0 h0 kv hkv
    simp only [depLoop] at hkv
    exact h0 kv hkv
  | cons t rest ih =>
    intro st gd0 h0 kv hkv
    rw [depLoop] at hkv
    dsimp only [] at hkv
    refine ih _ _ ?_ kv hkv
    intro kv2 hkv2
    by_cases hin : ed.any (fun kv => kv.1 = t.i)
    · rw [if_pos hin] at hkv2
      rcases mem_dictInsert hkv2 with h3 | h3
      · subst h3
        exact ⟨t.headIdx, t.headIdx + t.headText.length, rfl⟩
      · exact h0 kv2 h3
    · rw [if_neg hin] at hkv2
      exact h0 kv2 hkv2

theorem relLoop_textFromOrig (docId : Option String) (textOrig : String)
    (ed : List (Nat × EntProps)) (gd : List (Nat × GovProps))
    (hed : ∀ kv ∈ ed, ∃ a b, (kv.2).text = pySlice textOrig a b)
    (hgd : ∀ kv ∈ gd, ∃ a b, (kv.2).governerText = pySlice textOrig a b) :
    ∀ (edIter : List (Nat × EntProps)) (st : IdState) (anns : List Ann)
      (st2 : IdState),
      (∀ kv ∈ edIter, ∃ a b, (kv.2).text = pySlice textOrig a b) →
      relLoop docId ed gd edIter st = some (anns, st2) →
      ∀ ann ∈ anns, textFromOrig textOrig ann := by
  intro edIter st anns st2 hiter h ann hann
  rcases relLoop_anns docId ed gd edIter st anns st2 h ann hann with
    ⟨i1, e1, i2, e2, g1, g2, hm1, hm2, hlt, hg1, hg2, hgov, hat, hstart,
      hstop, hprops⟩
  constructor
  · intro key hkey s hs
    rw [hprops] at hs
    rcases hiter (i1, e1) hm1 with ⟨a1, b1, he1⟩
    rcases hed (i2, e2) hm2 with ⟨a2, b2, he2⟩
    rcases hgd (i1, g1) (lookup_mem hg1) with ⟨ag, bg, hgt⟩
    fin_cases hkey <;> simp [List.lookup, mkRelProps] at hs
    · exact ⟨ag, bg, by rw [← hs]; exact hgt⟩
    · exact ⟨a1, b1, by rw [← hs]; exact he1⟩
    · exact ⟨a2, b2, by rw [← hs]; exact he2⟩
  · intro s a b hsa hsb hs
    rw [hstart] at hsa
    exact Option.noConfusion hsa

/-- C9: for every run of _add_tool_output (with or without the uncased
pre-pass, i.e. for any pipeline input), every emitted annotation's
text-carrying properties (text, root_text, dependent_text,
governer_text, rel_text, e1_text, e2_text) are slices of the original
document text text_orig, and the "text" property of an offset-bearing
annotation is the slice of text_orig at the annotation's own
offsets. -/
theorem claim_C9_text_from_original (nerOpt : Option (String → List Tok))
    (nlpFn : String → SpacyDoc) (docId : Option String) (textOrig : String)
    (st : IdState) (anns : List Ann) (st2 : IdState)
    (hrun : addToolOutput nerOpt nlpFn docId textOrig st = some (anns, st2)) :
    ∀ ann ∈ anns, textFromOrig textOrig ann := by
  intro ann hann
  unfold addToolOutput at hrun
  dsimp only [] at hrun
  split at hrun
  · exact Option.noConfusion hrun
  · next nc hnc =>
    split at hrun
    · exact Option.noConfusion hrun
    · next sn hsn =>
      split at hrun
      · exact Option.noConfusion hrun
      · next ne hne =>
        split at hrun
        · exact Option.noConfusion hrun
        · next rl hrl =>
          simp only [Option.some.injEq, Prod.mk.injEq] at hrun
          obtain ⟨h1, _⟩ := hrun
          subst h1
          have hedprop : ∀ kv ∈ ne.2.1, ∃ a b,
              (kv.2).text = pySlice textOrig a b := by
            refine entityLoop_ed_text textOrig docId _ _ _ _ ne.1 ne.2.1
              ne.2.2 (by rw [hne]) ?_
            intro kv hkv
            simp at hkv
          rcases List.mem_append.1 hann with hm | hm
          rcases List.mem_append.1 hm with hm2 | hm2
          rcases List.mem_append.1 hm2 with hm3 | hm3
          rcases List.mem_append.1 hm3 with hm4 | hm4
          rcases List.mem_append.1 hm4 with hm5 | hm5
          · exact tokenLoop_textFromOrig textOrig docId _ _ ann hm5
          · exact spanLoop_textFromOrig "NounChunk" "nc" textOrig docId _ _ _
              nc.1 nc.2 hnc ann hm5
          · exact spanLoop_textFromOrig "Sentence" "s" textOrig docId _ _ _
              sn.1 sn.2 hsn ann hm4
          · exact entityLoop_textFromOrig textOrig docId _ _ _ _ ne.1 ne.2.1
              ne.2.2 (by rw [hne]) ann hm3
          · exact depLoop_textFromOrig textOrig docId _ _ _ _ ann hm2
          · refine relLoop_textFromOrig docId textOrig _ _ hedprop ?_ _ _
              rl.1 rl.2 hedprop (by rw [hrl]) ann hm
            refine depLoop_gd_text textOrig docId _ _ _ _ ?_
            intro kv hkv
            simp at hkv

/-- C9 witness: the theorem applied to the concrete three-token run;
the first emitted annotation's text properties are slices of the
original text. -/
theorem claim_C9_witness :
    textFromOrig c8text (c8anns.getD 0 defaultAnn) :=
  claim_C9_text_from_original none (fun _ => c8doc) none c8text idReset
    c8anns (c8run.getD ([], idReset)).2 (by decide)
    (c8anns.getD 0 defaultAnn) (by decide)

/-! ## C3: identifier uniqueness within a batch -/

theorem ofDigitsRev_toDigitsRev : ∀ (fuel n : Nat), n < fuel →
    ofDigitsRev (toDigitsRev fuel n) = n := by
  intro fuel
  induction fuel with
  | zero =>
    intro n h
    omega
  | succ f ih =>
    intro n h
    rw [toDigitsRev]
    by_cases h10 : n < 10
    · rw [if_pos h10]
      simp [ofDigitsRev]
    · rw [if_neg h10, ofDigitsRev, ih (n / 10) (by omega)]
      omega

theorem toDigitsRev_lt : ∀ (fuel n d : Nat), d ∈ toDigitsRev fuel n →
    d < 10 := by
  intro fuel
  induction fuel with
  | zero =>
    intro n d h
    simp [toDigitsRev] at h
  | succ f ih =>
    intro n d h
    rw [toDigitsRev] at h
    by_cases h10 : n < 10
    · rw [if_pos h10] at h
      simp at h
      omega
    · rw [if_neg h10] at h
      rcases List.mem_cons.1 h with h1 | h1
      · omega
      · exact ih (n / 10) d h1

theorem digitChar_inj (d1 d2 : Nat) (h1 : d1 < 10) (h2 : d2 < 10)
    (h : digitChar d1 = digitChar d2) : d1 = d2 := by
  interval_cases d1 <;> interval_cases d2 <;>
    first
      | rfl
      | (exfalso
         revert h
         decide)

theorem map_digitChar_inj : ∀ (l1 l2 : List Nat), (∀ d ∈ l1, d < 10) →
    (∀ d ∈ l2, d < 10) → l1.map digitChar = l2.map digitChar → l1 = l2 := by
  intro l1
  induction l1 with
  | nil =>
    intro l2 _ _ h
    cases l2 <;> simp_all
  | cons d1 rest1 ih =>
    intro l2 hb1 hb2 h
    cases l2 with
    | nil => simp at h
    | cons d2 rest2 =>
      simp only [List.map_cons, List.cons.injEq] at h
      have hd := digitChar_inj d1 d2 (hb1 d1 (List.mem_cons_self _ _))
        (hb2 d2 (List.mem_cons_self _ _)) h.1
      rw [hd, ih rest2 (fun d hd2 => hb1 d (List.mem_cons_of_mem _ hd2))
        (fun d hd2 => hb2 d (List.mem_cons_of_mem _ hd2)) h.2]

theorem natRepr_inj (m n : Nat) (h : natRepr m = natRepr n) : m = n := by
  rw [natRepr, natRepr] at h
  have hdata := congrArg String.data h
  simp only [data_mk] at hdata
  have hrev := List.reverse_injective hdata
  have hmap := map_digitChar_inj _ _ (fun d hd => toDigitsRev_lt _ _ d hd)
    (fun d hd => toDigitsRev_lt _ _ d hd) hrev
  have hv1 := ofDigitsRev_toDigitsRev (m + 1) m (by omega)
  have hv2 := ofDigitsRev_toDigitsRev (n + 1) n (by omega)
  rw [← hv1, ← hv2, hmap]

theorem appPrefix_append_inj :
    ∀ p1 ∈ appPrefixes, ∀ p2 ∈ appPrefixes, ∀ x y : String,
      p1 ++ x = p2 ++ y → p1 = p2 ∧ x = y := by
  intro p1 h1 p2 h2 x y h
  have hd := congrArg String.data h
  simp only [String.data_append] at hd
  fin_cases h1 <;> fin_cases h2 <;>
    first
      | (refine ⟨rfl, ?_⟩
         apply String.ext
         exact List.append_cancel_left hd)
      | (exfalso
         injection hd with c1 hd2
         exact absurd c1 (by decide))
      | (exfalso
         injection hd with c1 hd2
         injection hd2 with c2 hd3
         exact absurd c2 (by decide))
      | (exfalso
         injection hd with c1 hd2
         injection hd2 with c2 hd3
         injection hd3 with c3 hd4
         exact absurd c3 (by decide))

theorem lookup_idSet (st : IdState) (p : String) (v : Nat) (q : String) :
    List.lookup q (idSet st p v) =
      if q = p then some v else List.lookup q st := by
  induction st with
  | nil =>
    by_cases hq : q = p
    · simp [idSet, List.lookup_cons, hq]
    · simp [idSet, List.lookup_cons, hq, beq_false_of_ne hq]
  | cons kv rest ih =>
    rcases kv with ⟨k0, v0⟩
    by_cases hk : k0 = p
    · subst hk
      by_cases hq : q = k0
      · simp [idSet, List.lookup_cons, hq]
      · simp [idSet, List.lookup_cons, hq, beq_false_of_ne hq]
    · by_cases hq : q = k0
      · subst hq
        have hqp : q ≠ p := fun hc => hk hc
        simp [idSet, hk, List.lookup_cons, hqp]
      · simp [idSet, hk, List.lookup_cons, hq, beq_false_of_ne hq, ih]

theorem idGet_idSet (st : IdState) (p : String) (v : Nat) (q : String) :
    idGet (idSet st p v) q = if q = p then v else idGet st q := by
  rw [idGet, lookup_idSet]
  by_cases hq : q = p
  · rw [if_pos hq, if_pos hq]
    rfl
  · rw [if_neg hq, if_neg hq]
    rfl

theorem mem_runIds : ∀ (ps : List String) (st : IdState) (x : String),
    x ∈ runIds st ps → ∃ p ∈ ps, ∃ c, idGet st p < c ∧ x = p ++ natRepr c := by
  intro ps
  induction ps with
  | nil =>
    intro st x h
    simp [runIds] at h
  | cons p rest ih =>
    intro st x h
    rw [runIds] at h
    rcases List.mem_cons.1 h with h1 | h1
    · exact ⟨p, List.mem_cons_self _ _, idGet st p + 1, by omega,
        by rw [h1]; rfl⟩
    · rcases ih (idNew st p).2 x h1 with ⟨q, hq, c, hc, hx⟩
      refine ⟨q, List.mem_cons_of_mem _ hq, c, ?_, hx⟩
      have hset : idGet (idNew st p).2 q =
          if q = p then idGet st p + 1 else idGet st q := by
        show idGet (idSet st p (idGet st p + 1)) q = _
        rw [idGet_idSet]
      by_cases hqp : q = p
      · rw [hset, if_pos hqp] at hc
        subst hqp
        omega
      · rw [hset, if_neg hqp] at hc
        exact hc

theorem runIds_nodup : ∀ (ps : List String) (st : IdState),
    (∀ p ∈ ps, p ∈ appPrefixes) → (runIds st ps).Nodup := by
  intro ps
  induction ps with
  | nil =>
    intro st _
    simp [runIds]
  | cons p rest ih =>
    intro st hp
    rw [runIds, List.nodup_cons]
    refine ⟨?_, ih _ (fun q hq => hp q (List.mem_cons_of_mem _ hq))⟩
    intro hmem
    rcases mem_runIds rest (idNew st p).2 _ hmem with ⟨q, hq, c, hc, hx⟩
    have hx2 : p ++ natRepr (idGet st p + 1) = q ++ natRepr c := hx
    rcases appPrefix_append_inj p (hp p (List.mem_cons_self _ _)) q
      (hp q (List.mem_cons_of_mem _ hq)) _ _ hx2 with ⟨hpq, hnum⟩
    have hcc := natRepr_inj _ _ hnum
    subst hpq
    have hset : idGet (idNew st p).2 p = idGet st p + 1 := by
      show idGet (idSet st p (idGet st p + 1)) p = _
      rw [idGet_idSet, if_pos rfl]
    rw [hset] at hc
    omega

/-- C3 counterexample: for the call sequence new("a1") followed by
eleven calls new("a") after a reset, the first call returns "a11" and
the eleventh "a" call also returns "a11" — the identifier strings of a
batch are not pairwise distinct for every sequence of Identifiers.new
calls, because a prefix that is another prefix followed by digits makes
two counters collide. -/
theorem claim_C3_counterexample :
    ¬ (runBatch ("a1" :: List.replicate 11 "a")).Nodup := by decide

/-- C3 (amended): identifiers minted by Identifiers.new are unique
within a batch for every sequence of calls whose prefixes are among
those the app actually passes ("t", "nc", "s", "ne", "dep", "rel"): all
returned identifier strings are pairwise distinct after a reset (for
arbitrary prefixes this can fail, e.g. prefixes "a1" and "a"); and
_annotate invokes Identifiers.reset at its start, so its result ignores
the incoming counter state and each batch's counters begin at zero. -/
theorem claim_C3_identifier_uniqueness :
    (∀ ps : List String, (∀ p ∈ ps, p ∈ appPrefixes) →
      (runBatch ps).Nodup) ∧
    (∀ (nerOpt : Option (String → List Tok)) (nlpFn : String → SpacyDoc)
      (docs : List String) (st : IdState),
      annotateDocs nerOpt nlpFn docs st =
        annotateDocs nerOpt nlpFn docs idReset) :=
  ⟨fun ps hp => runIds_nodup ps idReset hp, fun _ _ _ _ => rfl⟩

/-- C3 witness: a concrete batch over the app's prefixes has pairwise
distinct identifiers, and a concrete _annotate run ignores a dirty
incoming counter state. -/
theorem claim_C3_witness :
    (runBatch ["t", "t", "nc", "s", "ne", "dep", "rel", "t"]).Nodup ∧
    annotateDocs none (fun _ => c8doc) [c8text] [("t", 5)] =
      annotateDocs none (fun _ => c8doc) [c8text] idReset :=
  ⟨claim_C3_identifier_uniqueness.1 _ (by decide),
   claim_C3_identifier_uniqueness.2 none (fun _ => c8doc) [c8text] [("t", 5)]⟩

end SpacyDbpedia
